import Mathlib

/-!
Verification of the DS3231Controller scheduling/persistence core.

The definitions below are a shallow embedding of `src/DS3231Controller.cpp`
(and the controller header).  Machine integers are modelled as `Nat`; the
spec restricts timestamps to years 2000..2100, where the `uint32`/`uint16`
arithmetic of the source never overflows, so no wrap-around modelling is
needed on the paths covered here (bounds appear as hypotheses where they
matter).  The `DateTime` value type comes from the external RTClib
dependency, which is not part of this repository; it is modelled from the
spec (Timestamp: calendar fields plus a validity flag, epoch conversion,
comparison by epoch seconds) following RTClib's documented interface.
-/

namespace DS3231

/-- Seconds from 1970-01-01 to 2000-01-01 (RTClib SECONDS_FROM_1970_TO_2000). -/
def EPOCH2000 : Nat := 946684800

/-- Non-leap-year month lengths (RTClib daysInMonth table). -/
def daysInMonthTab : List Nat := [31, 28, 31, 30, 31, 30, 31, 31, 30, 31, 30, 31]

/-- Modelled from the spec: RTClib `DateTime` (the spec's Timestamp), an
absolute calendar moment with year/month/day/hour/minute/second fields and a
validity flag.  `yOff` is the offset from year 2000, as stored by RTClib. -/
structure DateTime where
  valid : Bool
  yOff : Nat
  m : Nat
  d : Nat
  hh : Nat
  mm : Nat
  ss : Nat
deriving DecidableEq, Repr

/-- The invalid Timestamp produced by `DateTime()` in the controller
("Return invalid DateTime"); modelled from the spec's validity flag. -/
def DateTime.invalid : DateTime := ⟨false, 0, 1, 1, 0, 0, 0⟩

/-- Sum of the month table strictly below month `m` (the `date2days` loop
`for (i = 1; i < m; ++i) days += daysInMonth[i - 1]`). -/
def monthCum : Nat → Nat
  | 0 => 0
  | 1 => 0
  | n + 2 => monthCum (n + 1) + daysInMonthTab.getD n 0

/-- 1 for leap years of the 2000..2099 window (`y % 4 == 0`), else 0. -/
def leapN (y : Nat) : Nat := if y % 4 = 0 then 1 else 0

/-- RTClib `date2days`: days since 2000-01-01 of the given calendar date
(`y` is the year offset from 2000). -/
def date2days (y m d : Nat) : Nat :=
  d + monthCum m + (if 2 < m ∧ y % 4 = 0 then 1 else 0) + 365 * y + (y + 3) / 4 - 1

/-- RTClib `time2ulong`: seconds from a day count plus time of day. -/
def time2ulong (days h mn s : Nat) : Nat := ((days * 24 + h) * 60 + mn) * 60 + s

/-- RTClib `DateTime::unixtime()`: epoch seconds of the calendar fields. -/
def DateTime.unixtime (dt : DateTime) : Nat :=
  time2ulong (date2days dt.yOff dt.m dt.d) dt.hh dt.mm dt.ss + EPOCH2000

/-- The year-extraction loop of the RTClib epoch constructor: starting from
year offset `y`, subtract whole years from `days` until fewer than one year
remains.  The C++ loop is unbounded; `fuel = days + 1` always suffices since
every iteration removes at least 365 days. -/
def yearGo : Nat → Nat → Nat → Nat × Nat
  | 0, y, days => (y, days)
  | fuel + 1, y, days =>
    if days < 365 + leapN y then (y, days)
    else yearGo fuel (y + 1) (days - (365 + leapN y))

/-- The month-extraction loop of the RTClib epoch constructor
(`for (m = 1; m < 12; ++m)`), with `fuel` counting the remaining
iterations (11 from the start). -/
def monthGo (leap : Bool) : Nat → Nat → Nat → Nat × Nat
  | 0, mo, days => (mo, days)
  | fuel + 1, mo, days =>
    let dim := daysInMonthTab.getD (mo - 1) 0 + (if leap ∧ mo = 2 then 1 else 0)
    if days < dim then (mo, days)
    else monthGo leap fuel (mo + 1) (days - dim)

/-- RTClib `DateTime(uint32_t t)` after the epoch-2000 rebase: decompose
seconds-since-2000 into calendar fields. -/
def ofSecs2000 (e : Nat) : DateTime :=
  let s := e % 60
  let e1 := e / 60
  let mn := e1 % 60
  let e2 := e1 / 60
  let h := e2 % 24
  let days := e2 / 24
  let yr := yearGo (days + 1) 0 days
  let mo := monthGo (yr.1 % 4 = 0) 11 1 yr.2
  ⟨true, yr.1, mo.1, mo.2 + 1, h, mn, s⟩

/-- RTClib `DateTime(uint32_t t)`: `t` is seconds since 1970. -/
def DateTime.ofUnixtime (t : Nat) : DateTime := ofSecs2000 (t - EPOCH2000)

/-- RTClib `DateTime(year, month, day, hour, min, sec)`:
`if (year >= 2000) year -= 2000`. -/
def DateTime.make (year month day hour minute second : Nat) : DateTime :=
  ⟨true, if 2000 ≤ year then year - 2000 else year, month, day, hour, minute, second⟩

/-- RTClib `DateTime::year()`. -/
def DateTime.year (dt : DateTime) : Nat := 2000 + dt.yOff

/-- RTClib `operator+(TimeSpan)`: `DateTime(unixtime() + span.totalseconds())`. -/
def DateTime.addSeconds (dt : DateTime) (secs : Nat) : DateTime :=
  DateTime.ofUnixtime (dt.unixtime + secs)

/-- RTClib `DateTime::dayOfTheWeek()`: `(date2days(...) + 6) % 7`
(0 = Sunday). -/
def DateTime.dayOfTheWeek (dt : DateTime) : Nat :=
  (date2days dt.yOff dt.m dt.d + 6) % 7

/-- Modelled from the spec: the Timestamp validity flag (`isValid()`). -/
def DateTime.isValid (dt : DateTime) : Bool := dt.valid

/-- Closed form of the year loop's cumulative day offset: days from
2000-01-01 to the start of year `2000 + y` (365 per year plus one per leap
year strictly below `y`, counting multiples of 4). -/
def offDays (y : Nat) : Nat := 365 * y + (y + 3) / 4

/-- Calendar fields within the ranges the spec states for Timestamps
(years 2000..2100); inside this range the source's `uint32`/`uint16`
arithmetic never overflows, so the `Nat` model is exact. -/
def DateTime.InRange (dt : DateTime) : Prop :=
  dt.yOff ≤ 100 ∧ 1 ≤ dt.m ∧ dt.m ≤ 12 ∧ 1 ≤ dt.d ∧ dt.d ≤ 31 ∧
    dt.hh < 24 ∧ dt.mm < 60 ∧ dt.ss < 60

instance (dt : DateTime) : Decidable dt.InRange := by
  unfold DateTime.InRange
  infer_instance

/-! ## Controller data model (header `DS3231Controller.h`) -/

/-- `DS3231Controller::Schedule`.  `name` is the byte sequence of the stored
Arduino `String` (a C string: its bytes are nonzero). -/
structure Schedule where
  id : Nat
  dayMask : Nat
  startHour : Nat
  startMinute : Nat
  endHour : Nat
  endMinute : Nat
  enabled : Bool
  name : List Nat
deriving DecidableEq, Repr

/-- `Schedule::isDayEnabled`: `(dayMask & (1 << dayOfWeek)) != 0`. -/
def Schedule.isDayEnabled (s : Schedule) (dayOfWeek : Nat) : Bool :=
  s.dayMask &&& (1 <<< dayOfWeek) != 0

/-- `day` (a count of days since 2000-01-01) carries a start instant of
`sched` lying strictly after the epoch second `fromU`: the schedule's day
mask enables that day's weekday, and the day's `startHour:startMinute`
instant is past `fromU`.  (2000-01-01 is day 0, a Saturday, so the weekday
of day `n` is `(n + 6) % 7`.) -/
def startSlotAfter (sched : Schedule) (fromU day : Nat) : Prop :=
  sched.isDayEnabled ((day + 6) % 7) = true ∧
    fromU < EPOCH2000 + day * 86400 +
      (sched.startHour * 3600 + sched.startMinute * 60)

instance (sched : Schedule) (fromU day : Nat) :
    Decidable (startSlotAfter sched fromU day) := by
  unfold startSlotAfter
  infer_instance

/-- `DS3231Controller::VacationMode`. -/
structure VacationMode where
  enabled : Bool
  startDate : DateTime
  endDate : DateTime
  runPumpExercise : Bool
deriving DecidableEq, Repr

/-- `DS3231Controller::PumpExercise`. -/
structure PumpExercise where
  enabled : Bool
  dayOfMonth : Nat
  hour : Nat
  minute : Nat
  durationSeconds : Nat
  lastRun : DateTime
deriving DecidableEq, Repr

/-- The controller's mutable state: owned schedules, vacation mode, pump
exercise and the initialization flag.  The RTC clock reading `_rtc.now()` is
passed explicitly as a `now` argument to the operations that consult it; the
recursive mutex always succeeds in this single-threaded embedding. -/
structure CtrlState where
  schedules : List Schedule
  vacationMode : VacationMode
  pumpExercise : PumpExercise
  initialized : Bool
deriving DecidableEq, Repr

/-- `MAX_SCHEDULES`. -/
def MAX_SCHEDULES : Nat := 10

/-! ## Schedule CRUD (`DS3231Controller.cpp`) -/

/-- The `do { ... } while (found && id < 255)` scan of
`getNextFreeScheduleId`, with `fuel` bounding the remaining iterations
(the source's `id < 255` guard admits at most 254 increments from 1). -/
def nextFreeGo (schedules : List Schedule) : Nat → Nat → Nat
  | 0, id => id
  | fuel + 1, id =>
    if schedules.any (fun s => s.id == id) then
      (if id + 1 < 255 then nextFreeGo schedules fuel (id + 1) else id + 1)
    else id

/-- `DS3231Controller::getNextFreeScheduleId`. -/
def getNextFreeScheduleId (schedules : List Schedule) : Nat :=
  nextFreeGo schedules 254 1

/-- `DS3231Controller::addSchedule`.  Note: the source performs no
`_initialized` check here. -/
def addSchedule (st : CtrlState) (schedule : Schedule) : Bool × CtrlState :=
  if MAX_SCHEDULES ≤ st.schedules.length then (false, st)
  else
    let newSchedule :=
      if schedule.id = 0 then
        { schedule with id := getNextFreeScheduleId st.schedules }
      else schedule
    (true, { st with schedules := st.schedules ++ [newSchedule] })

/-- The first-match replacement loop of `DS3231Controller::updateSchedule`. -/
def updateGo (scheduleId : Nat) (schedule : Schedule) :
    List Schedule → Bool × List Schedule
  | [] => (false, [])
  | sched :: rest =>
    if sched.id = scheduleId then
      (true, { schedule with id := scheduleId } :: rest)
    else
      let r := updateGo scheduleId schedule rest
      (r.1, sched :: r.2)

/-- `DS3231Controller::updateSchedule`. -/
def updateSchedule (st : CtrlState) (scheduleId : Nat) (schedule : Schedule) :
    Bool × CtrlState :=
  let r := updateGo scheduleId schedule st.schedules
  (r.1, { st with schedules := r.2 })

/-- `DS3231Controller::removeSchedule` (`std::remove_if` erases every
matching entry). -/
def removeSchedule (st : CtrlState) (scheduleId : Nat) : Bool × CtrlState :=
  if st.schedules.any (fun s => s.id == scheduleId) then
    (true, { st with schedules := st.schedules.filter (fun s => s.id != scheduleId) })
  else (false, st)

/-- `DS3231Controller::clearAllSchedules`. -/
def clearAllSchedules (st : CtrlState) : CtrlState :=
  { st with schedules := [] }

/-- The first-match lookup loop shared by `getSchedule` and
`isWithinSchedule`. -/
def findSchedule (schedules : List Schedule) (scheduleId : Nat) : Option Schedule :=
  schedules.find? (fun s => s.id == scheduleId)

/-! ## Vacation mode and pump exercise -/

/-- `DS3231Controller::setVacationMode` (no `_initialized` check in the
source; `runPumpExercise` is left untouched). -/
def setVacationMode (st : CtrlState) (enabled : Bool) (start finish : DateTime) :
    CtrlState :=
  { st with vacationMode :=
      { st.vacationMode with enabled := enabled, startDate := start, endDate := finish } }

/-- `DS3231Controller::isVacationMode`. -/
def isVacationMode (st : CtrlState) (now : DateTime) : Bool :=
  if ¬st.vacationMode.enabled then false
  else if ¬st.initialized then false
  else if st.vacationMode.startDate.unixtime ≤ now.unixtime ∧
      now.unixtime ≤ st.vacationMode.endDate.unixtime then true
  else false

/-- `DS3231Controller::setPumpExercise` (no `_initialized` check;
`lastRun` untouched). -/
def setPumpExercise (st : CtrlState) (enabled : Bool)
    (dayOfMonth hour minute durationSeconds : Nat) : CtrlState :=
  { st with pumpExercise :=
      { enabled := enabled
        dayOfMonth := dayOfMonth
        hour := hour
        minute := minute
        durationSeconds := durationSeconds
        lastRun := st.pumpExercise.lastRun } }

/-- `DS3231Controller::isPumpExerciseTime`. -/
def isPumpExerciseTime (st : CtrlState) (now : DateTime) : Bool :=
  if ¬st.pumpExercise.enabled then false
  else if ¬st.initialized then false
  else if isVacationMode st now = true ∧ st.vacationMode.runPumpExercise = false then false
  else if now.d = st.pumpExercise.dayOfMonth ∧ now.hh = st.pumpExercise.hour ∧
      now.mm = st.pumpExercise.minute then
    if st.pumpExercise.lastRun.isValid ∧
        st.pumpExercise.lastRun.year = now.year ∧
        st.pumpExercise.lastRun.m = now.m then
      false
    else true
  else false

/-- `DS3231Controller::markPumpExerciseComplete` (gated on `_initialized`;
stores the current RTC reading into `lastRun`). -/
def markPumpExerciseComplete (st : CtrlState) (now : DateTime) : CtrlState :=
  if ¬st.initialized then st
  else { st with pumpExercise := { st.pumpExercise with lastRun := now } }

/-! ## Window evaluation -/

/-- `DS3231Controller::isTimeInRange`. -/
def isTimeInRange (current : DateTime)
    (startHour startMinute endHour endMinute : Nat) : Bool :=
  let currentMinutes := current.hh * 60 + current.mm
  let startMinutes := startHour * 60 + startMinute
  let endMinutes := endHour * 60 + endMinute
  if startMinutes ≤ endMinutes then
    decide (startMinutes ≤ currentMinutes ∧ currentMinutes < endMinutes)
  else
    decide (startMinutes ≤ currentMinutes ∨ currentMinutes < endMinutes)

/-- `DS3231Controller::isWithinSchedule` (the RTC reading is the explicit
`now`). -/
def isWithinSchedule (st : CtrlState) (now : DateTime) (scheduleId : Nat) : Bool :=
  if ¬st.initialized then false
  else
    match findSchedule st.schedules scheduleId with
    | none => false
    | some schedule =>
      if ¬schedule.enabled then false
      else if ¬schedule.isDayEnabled now.dayOfTheWeek then false
      else isTimeInRange now schedule.startHour schedule.startMinute
        schedule.endHour schedule.endMinute

/-- `DS3231Controller::isWithinAnySchedule`. -/
def isWithinAnySchedule (st : CtrlState) (now : DateTime) : Bool :=
  if ¬st.initialized then false
  else if st.vacationMode.enabled ∧
      st.vacationMode.startDate.unixtime ≤ now.unixtime ∧
      now.unixtime ≤ st.vacationMode.endDate.unixtime then
    false
  else st.schedules.any (fun schedule => isWithinSchedule st now schedule.id)

/-- The 8-iteration day scan of `calculateNextOccurrence`; `next` is the
running cursor, `fromU` the epoch seconds of `from`. -/
def calcGo (schedule : Schedule) (fromU : Nat) : DateTime → Nat → DateTime
  | _, 0 => DateTime.invalid
  | next, fuel + 1 =>
    if schedule.isDayEnabled next.dayOfTheWeek then
      if fromU < (DateTime.make next.year next.m next.d
          schedule.startHour schedule.startMinute 0).unixtime then
        DateTime.make next.year next.m next.d schedule.startHour schedule.startMinute 0
      else calcGo schedule fromU (next.addSeconds 86400) fuel
    else calcGo schedule fromU (next.addSeconds 86400) fuel

/-- `DS3231Controller::calculateNextOccurrence`. -/
def calculateNextOccurrence (schedule : Schedule) (fromDT : DateTime) : DateTime :=
  if ¬schedule.enabled ∨ schedule.dayMask = 0 then DateTime.invalid
  else calcGo schedule fromDT.unixtime (fromDT.addSeconds 60) 8

/-- The minimum-tracking fold of `getNextScheduledStart`. -/
def nextStartFold (now : DateTime) :
    List Schedule → DateTime → Bool → DateTime
  | [], best, _ => best
  | schedule :: rest, best, found =>
    if ¬schedule.enabled then nextStartFold now rest best found
    else
      let scheduleNext := calculateNextOccurrence schedule now
      if scheduleNext.isValid ∧ (found = false ∨ scheduleNext.unixtime < best.unixtime) then
        nextStartFold now rest scheduleNext true
      else nextStartFold now rest best found

/-- `DS3231Controller::getNextScheduledStart` (the RTC reading is the
explicit `now`). -/
def getNextScheduledStart (st : CtrlState) (now : DateTime) : DateTime :=
  if ¬st.initialized then DateTime.invalid
  else nextStartFold now st.schedules DateTime.invalid false

/-! ## Persistence codec

The buffer is a byte list.  `serializeSchedules` writes into a
caller-supplied buffer: within each 39-byte schedule record only
`7 + nameLen + 1` bytes are written, the rest keeps the buffer's previous
content, exactly as in the source.  The raw `memcpy` of the `VacationMode`
and `PumpExercise` structs is modelled field by field; the `DateTime`
members carry the spec-modelled validity flag as one extra byte, so the
record sizes are named constants rather than the C `sizeof` values (no
claim depends on the numeric sizes of these two records). -/

/-- A byte of a `bool` member. -/
def boolByte (b : Bool) : Nat := if b then 1 else 0

/-- Raw bytes of a `DateTime` struct member (validity flag plus the six
calendar fields, each a `uint8`). -/
def dtBytes (dt : DateTime) : List Nat :=
  [boolByte dt.valid, dt.yOff % 256, dt.m % 256, dt.d % 256,
    dt.hh % 256, dt.mm % 256, dt.ss % 256]

/-- Raw bytes of the `VacationMode` struct (`memcpy` source). -/
def vacBytes (v : VacationMode) : List Nat :=
  boolByte v.enabled :: (dtBytes v.startDate ++
    (dtBytes v.endDate ++ [boolByte v.runPumpExercise]))

/-- Raw bytes of the `PumpExercise` struct (`memcpy` source;
`durationSeconds` is a little-endian `uint16`). -/
def pumpBytes (p : PumpExercise) : List Nat :=
  boolByte p.enabled :: p.dayOfMonth % 256 :: p.hour % 256 :: p.minute % 256 ::
    p.durationSeconds % 256 :: p.durationSeconds / 256 % 256 :: dtBytes p.lastRun

/-- `sizeof(VacationMode)` in the model. -/
def sizeofVacationMode : Nat := 16

/-- `sizeof(PumpExercise)` in the model. -/
def sizeofPumpExercise : Nat := 13

/-- `sizeof(Schedule) - sizeof(String) + 32`, the per-record buffer-size
estimate of `getScheduleDataSize` (40 on the ESP32 target: 7 payload bytes
padded to 8, plus the 32-byte name field). -/
def scheduleRecordStorageSize : Nat := 40

/-- `DS3231Controller::getScheduleDataSize`. -/
def getScheduleDataSize (st : CtrlState) : Nat :=
  4 + st.schedules.length * scheduleRecordStorageSize +
    sizeofVacationMode + sizeofPumpExercise

/-- Overwrite `bytes.length` bytes of `buf` starting at `off`. -/
def writeBytes (buf : List Nat) (off : Nat) (bytes : List Nat) : List Nat :=
  buf.take off ++ (bytes ++ buf.drop (off + bytes.length))

/-- The bytes written for one schedule record: six `uint8` fields, the
enabled byte, then `min(nameLen, 31)` name bytes and a null terminator
(the remainder of the 32-byte name field is not written). -/
def schedRecordBytes (s : Schedule) : List Nat :=
  s.id % 256 :: s.dayMask % 256 :: s.startHour % 256 :: s.startMinute % 256 ::
    s.endHour % 256 :: s.endMinute % 256 :: boolByte s.enabled ::
    ((s.name.take 31).map (fun b => b % 256) ++ [0])

/-- The schedule-writing loop of `serializeSchedules`; `off` advances by
39 per record. -/
def serLoop : List Schedule → List Nat → Nat → List Nat
  | [], buf, _ => buf
  | s :: rest, buf, off => serLoop rest (writeBytes buf off (schedRecordBytes s)) (off + 39)

/-- `DS3231Controller::serializeSchedules`. -/
def serializeSchedules (st : CtrlState) (buffer : List Nat) : Bool × List Nat :=
  if buffer.length < getScheduleDataSize st then (false, buffer)
  else
    let b1 := writeBytes buffer 0 [0xD3, 0x23, 1, st.schedules.length % 256]
    let b2 := serLoop st.schedules b1 4
    let b3 := writeBytes b2 (4 + 39 * st.schedules.length) (vacBytes st.vacationMode)
    let b4 := writeBytes b3 (4 + 39 * st.schedules.length + sizeofVacationMode)
      (pumpBytes st.pumpExercise)
    (true, b4)

/-- `buffer[i]`; reads past the end of the supplied data return 0 in the
model (in the C++ source such reads are out of bounds, see C10). -/
def byteAt (buf : List Nat) (i : Nat) : Nat := buf.getD i 0

/-- Byte collection of the decoder's name read: `String(name)` takes the
bytes before the first null terminator; `fuel` starts at 31 because
`name[31] = 0` forces termination after at most 31 bytes. -/
def readCStringGo (buf : List Nat) (off : Nat) : Nat → List Nat
  | 0 => []
  | fuel + 1 =>
    if byteAt buf off = 0 then []
    else byteAt buf off :: readCStringGo buf (off + 1) fuel

/-- The 32-byte name read of the decoder: `memcpy(name, &buffer[offset], 32);
name[31] = 0;` followed by the C-string conversion `String(name)` — the
resulting byte sequence is the run of nonzero bytes from `offset`, cut at
31 bytes by the forced terminator. -/
def readCString (buf : List Nat) (off : Nat) : List Nat :=
  readCStringGo buf off 31

/-- One schedule record read of the decode loop. -/
def parseSchedule (buf : List Nat) (off : Nat) : Schedule :=
  { id := byteAt buf off
    dayMask := byteAt buf (off + 1)
    startHour := byteAt buf (off + 2)
    startMinute := byteAt buf (off + 3)
    endHour := byteAt buf (off + 4)
    endMinute := byteAt buf (off + 5)
    enabled := byteAt buf (off + 6) != 0
    name := readCString buf (off + 7) }

/-- The decode loop over `scheduleCount` records. -/
def parseLoop (buf : List Nat) : Nat → Nat → List Schedule
  | _, 0 => []
  | off, c + 1 => parseSchedule buf off :: parseLoop buf (off + 39) c

/-- `memcpy` into a `DateTime` member. -/
def parseDT (buf : List Nat) (off : Nat) : DateTime :=
  { valid := byteAt buf off != 0
    yOff := byteAt buf (off + 1)
    m := byteAt buf (off + 2)
    d := byteAt buf (off + 3)
    hh := byteAt buf (off + 4)
    mm := byteAt buf (off + 5)
    ss := byteAt buf (off + 6) }

/-- `memcpy` into the `VacationMode` struct. -/
def parseVac (buf : List Nat) (off : Nat) : VacationMode :=
  { enabled := byteAt buf off != 0
    startDate := parseDT buf (off + 1)
    endDate := parseDT buf (off + 8)
    runPumpExercise := byteAt buf (off + 15) != 0 }

/-- `memcpy` into the `PumpExercise` struct. -/
def parsePump (buf : List Nat) (off : Nat) : PumpExercise :=
  { enabled := byteAt buf off != 0
    dayOfMonth := byteAt buf (off + 1)
    hour := byteAt buf (off + 2)
    minute := byteAt buf (off + 3)
    durationSeconds := byteAt buf (off + 4) + 256 * byteAt buf (off + 5)
    lastRun := parseDT buf (off + 6) }

/-- `DS3231Controller::deserializeSchedules`.  `none` models a null buffer
pointer.  Note the source quirk: when the vacation record is skipped for
lack of bytes, `offset` is not advanced, so the pump-exercise length check
and read use the vacation record's offset. -/
def deserializeSchedules (st : CtrlState) (buffer : Option (List Nat)) :
    Bool × CtrlState :=
  match buffer with
  | none => (false, st)
  | some buf =>
    if buf.length < 4 then (false, st)
    else if ¬(byteAt buf 0 = 0xD3 ∧ byteAt buf 1 = 0x23) then (false, st)
    else if byteAt buf 2 ≠ 1 then (false, st)
    else if MAX_SCHEDULES < byteAt buf 3 then (false, st)
    else
      let c := byteAt buf 3
      let schedules := parseLoop buf 4 c
      let off1 := 4 + 39 * c
      let vacStep :=
        if off1 + sizeofVacationMode ≤ buf.length then
          (parseVac buf off1, off1 + sizeofVacationMode)
        else (st.vacationMode, off1)
      let pump :=
        if vacStep.2 + sizeofPumpExercise ≤ buf.length then parsePump buf vacStep.2
        else st.pumpExercise
      (true, { st with schedules := schedules, vacationMode := vacStep.1, pumpExercise := pump })

/-- The byte offsets the decode loop reads for the schedule records (7
field bytes plus the 32-byte name field per record); instrumentation of
`parseLoop` for the out-of-bounds analysis of C10. -/
def parseLoopReadOffsets (off c : Nat) : List Nat :=
  (List.range (39 * c)).map (fun i => off + i)

/-! ## Well-formedness of struct contents

Bounds guaranteed by the C types of the struct fields (`uint8`/`uint16`
members, C-string names); byte-level round trips are stated under them. -/

/-- Field bounds of a stored `DateTime` (`uint8` members). -/
def DateTime.WFBytes (dt : DateTime) : Prop :=
  dt.yOff < 256 ∧ dt.m < 256 ∧ dt.d < 256 ∧ dt.hh < 256 ∧ dt.mm < 256 ∧ dt.ss < 256

/-- Field bounds of a stored `Schedule`; the name is a C string of at most
31 bytes as the round-trip claim requires (nonzero bytes, no terminator). -/
def Schedule.WFBytes (s : Schedule) : Prop :=
  s.id < 256 ∧ s.dayMask < 256 ∧ s.startHour < 256 ∧ s.startMinute < 256 ∧
    s.endHour < 256 ∧ s.endMinute < 256 ∧
    s.name.length ≤ 31 ∧ (∀ b ∈ s.name, b ≠ 0 ∧ b < 256)

/-- Field bounds of a stored `VacationMode`. -/
def VacationMode.WFBytes (v : VacationMode) : Prop :=
  v.startDate.WFBytes ∧ v.endDate.WFBytes

/-- Field bounds of a stored `PumpExercise` (`durationSeconds` is `uint16`). -/
def PumpExercise.WFBytes (p : PumpExercise) : Prop :=
  p.dayOfMonth < 256 ∧ p.hour < 256 ∧ p.minute < 256 ∧
    p.durationSeconds < 65536 ∧ p.lastRun.WFBytes

instance (dt : DateTime) : Decidable dt.WFBytes := by
  unfold DateTime.WFBytes
  infer_instance

instance (s : Schedule) : Decidable s.WFBytes := by
  unfold Schedule.WFBytes
  infer_instance

instance (v : VacationMode) : Decidable v.WFBytes := by
  unfold VacationMode.WFBytes
  infer_instance

instance (p : PumpExercise) : Decidable p.WFBytes := by
  unfold PumpExercise.WFBytes
  infer_instance

/-! ## Operation sequences over the schedule set (for the id-uniqueness
analysis) -/

/-- The schedule-set mutating operations of the controller, including a
decode from a persisted buffer. -/
inductive COp where
  | add (s : Schedule)
  | update (scheduleId : Nat) (s : Schedule)
  | remove (scheduleId : Nat)
  | clear
  | load (buf : List Nat)

/-- State transition of one operation (result flags discarded). -/
def applyOp (st : CtrlState) : COp → CtrlState
  | COp.add s => (addSchedule st s).2
  | COp.update i s => (updateSchedule st i s).2
  | COp.remove i => (removeSchedule st i).2
  | COp.clear => clearAllSchedules st
  | COp.load buf => (deserializeSchedules st (some buf)).2

/-- Run a sequence of operations. -/
def applyOps (st : CtrlState) (ops : List COp) : CtrlState :=
  ops.foldl applyOp st

/-- Side condition of the amended uniqueness claim: ids are only
auto-assigned (`add` is called with `id == 0`) and any loaded buffer
decodes to schedules with pairwise distinct ids. -/
def OpAuto : COp → Prop
  | COp.add s => s.id = 0
  | COp.load buf => ((parseLoop buf 4 (byteAt buf 3)).map Schedule.id).Nodup
  | _ => True

/-- The schedule-set invariant: pairwise distinct ids, at most
`MAX_SCHEDULES` entries. -/
def SchedInv (st : CtrlState) : Prop :=
  (st.schedules.map Schedule.id).Nodup ∧ st.schedules.length ≤ MAX_SCHEDULES

instance : ∀ op : COp, Decidable (OpAuto op)
  | COp.add s => inferInstanceAs (Decidable (s.id = 0))
  | COp.update _ _ => inferInstanceAs (Decidable True)
  | COp.remove _ => inferInstanceAs (Decidable True)
  | COp.clear => inferInstanceAs (Decidable True)
  | COp.load _ => inferInstanceAs (Decidable (List.Nodup _))

instance (st : CtrlState) : Decidable (SchedInv st) := by
  unfold SchedInv
  infer_instance

/-- Iterated `addSchedule`, collecting the result flags (for the
capacity-boundary claim). -/
def addAll (st : CtrlState) : List Schedule → List Bool × CtrlState
  | [] => ([], st)
  | s :: rest =>
    let r := addSchedule st s
    let rr := addAll r.2 rest
    (r.1 :: rr.1, rr.2)

/-! ## Concrete fixtures for witnesses and counterexamples -/

/-- A quiescent vacation record. -/
def exVacOff : VacationMode :=
  { enabled := false
    startDate := DateTime.invalid
    endDate := DateTime.invalid
    runPumpExercise := false }

/-- The constructor's default pump-exercise record (disabled, day 1,
03:00, 300 s). -/
def exPumpDefault : PumpExercise :=
  { enabled := false
    dayOfMonth := 1
    hour := 3
    minute := 0
    durationSeconds := 300
    lastRun := DateTime.invalid }

/-- An initialized controller with no schedules. -/
def exSt0 : CtrlState :=
  { schedules := []
    vacationMode := exVacOff
    pumpExercise := exPumpDefault
    initialized := true }

/-- A controller before `begin()` succeeded. -/
def exUninit : CtrlState :=
  { schedules := []
    vacationMode := exVacOff
    pumpExercise := exPumpDefault
    initialized := false }

/-- A Monday-to-Friday 06:00-08:00 schedule (day mask 0b0111110). -/
def exSchedWeek : Schedule :=
  { id := 3
    dayMask := 62
    startHour := 6
    startMinute := 0
    endHour := 8
    endMinute := 0
    enabled := true
    name := [72, 105] }

/-- An all-days 23:00-01:00 midnight-spanning schedule. -/
def exSchedSpan : Schedule :=
  { id := 1
    dayMask := 127
    startHour := 23
    startMinute := 0
    endHour := 1
    endMinute := 0
    enabled := true
    name := [] }

/-- Initialized controller holding only the midnight-spanning schedule. -/
def exStSpan : CtrlState :=
  { exSt0 with schedules := [exSchedSpan] }

/-- Initialized controller holding only the Monday-to-Friday schedule. -/
def exStWeek : CtrlState :=
  { exSt0 with schedules := [exSchedWeek] }

/-- A vacation record covering all of 2024, pump exercise suppressed. -/
def exVac2024 : VacationMode :=
  { enabled := true
    startDate := DateTime.make 2024 1 1 0 0 0
    endDate := DateTime.make 2024 12 31 23 59 59
    runPumpExercise := false }

/-- Controller with an active schedule and vacation covering `now`. -/
def exStVac : CtrlState :=
  { exSt0 with schedules := [exSchedSpan], vacationMode := exVac2024 }

/-- A 4-byte buffer whose header is valid and declares 2 schedule
records, but which contains none of their 78 bytes. -/
def exBufC10 : List Nat := [0xD3, 0x23, 1, 2]

/-- A 17-byte buffer with a valid zero-schedule header followed by 13
junk bytes: too short for the vacation record, yet long enough that the
decoder's unadvanced offset check accepts them as a pump-exercise
record. -/
def exBufShort : List Nat :=
  [0xD3, 0x23, 1, 0, 1, 5, 6, 7, 44, 1, 1, 0, 1, 1, 0, 0, 0]

/-- Controller with pump exercise enabled on day 15 at 03:30, never run. -/
def exStPump : CtrlState :=
  { exSt0 with pumpExercise :=
      { enabled := true
        dayOfMonth := 15
        hour := 3
        minute := 30
        durationSeconds := 600
        lastRun := DateTime.invalid } }

/-- A fully populated controller state (schedule, vacation and pump
records all non-default) for round-trip witnesses. -/
def exStFull : CtrlState :=
  { schedules := [exSchedWeek]
    vacationMode := exVac2024
    pumpExercise :=
      { enabled := true
        dayOfMonth := 15
        hour := 3
        minute := 30
        durationSeconds := 600
        lastRun := DateTime.make 2024 2 15 3 30 0 }
    initialized := true }

/-! # Helper lemmas -/

theorem isVacationMode_initialized {st : CtrlState} {now : DateTime}
    (h : isVacationMode st now = true) : st.initialized = true := by
  unfold isVacationMode at h
  by_cases h1 : st.vacationMode.enabled = true
  · by_cases h2 : st.initialized = true
    · exact h2
    · simp [h1, h2] at h
  · simp [h1] at h

theorem markPump_initialized_eq (st : CtrlState) (now : DateTime)
    (h : st.initialized = true) :
    markPumpExerciseComplete st now =
      { st with pumpExercise := { st.pumpExercise with lastRun := now } } := by
  simp [markPumpExerciseComplete, h]

/-- After `markPumpExerciseComplete` at a valid `now`, the trigger stays
false for every instant in the same calendar month. -/
theorem pump_false_after_mark (st : CtrlState) (now now3 : DateTime)
    (hinit : st.initialized = true) (hval : now.valid = true)
    (hy : now3.yOff = now.yOff) (hm : now3.m = now.m) :
    isPumpExerciseTime (markPumpExerciseComplete st now) now3 = false := by
  rcases st with ⟨sch, vac, ⟨pe, pd, ph, pm, pdur, plr⟩, init⟩
  rcases hinit
  show isPumpExerciseTime ⟨sch, vac, ⟨pe, pd, ph, pm, pdur, now⟩, true⟩ now3 = false
  unfold isPumpExerciseTime
  split
  · rfl
  · split
    · rfl
    · split
      · rfl
      · split
        · rw [if_pos]
          refine ⟨?_, ?_, ?_⟩
          · exact hval
          · show 2000 + now.yOff = 2000 + now3.yOff
            omega
          · exact hm.symm
        · rfl

/-! # Claim theorems -/

/-- Claim C8: `isPumpExerciseTime` is false when pump exercise is disabled,
false when vacation is active and `runPumpExercise` is false, and otherwise
true exactly when `now`'s day-of-month, hour and minute equal the configured
values and `lastRun` is invalid or of a different (year, month); after
`markPumpExerciseComplete` at `now` it stays false for the rest of that
calendar month, also when marking twice within the same minute. -/
theorem claimC8_pump_exercise_trigger :
    (∀ (st : CtrlState) (now : DateTime), st.pumpExercise.enabled = false →
      isPumpExerciseTime st now = false) ∧
    (∀ (st : CtrlState) (now : DateTime), isVacationMode st now = true →
      st.vacationMode.runPumpExercise = false →
      isPumpExerciseTime st now = false) ∧
    (∀ (st : CtrlState) (now : DateTime), st.initialized = true →
      st.pumpExercise.enabled = true →
      ¬(isVacationMode st now = true ∧ st.vacationMode.runPumpExercise = false) →
      (isPumpExerciseTime st now = true ↔
        (now.d = st.pumpExercise.dayOfMonth ∧ now.hh = st.pumpExercise.hour ∧
          now.mm = st.pumpExercise.minute ∧
          (st.pumpExercise.lastRun.isValid = false ∨
            st.pumpExercise.lastRun.year ≠ now.year ∨
            st.pumpExercise.lastRun.m ≠ now.m)))) ∧
    (∀ (st : CtrlState) (now now3 : DateTime), st.initialized = true →
      now.valid = true → now3.yOff = now.yOff → now3.m = now.m →
      isPumpExerciseTime (markPumpExerciseComplete st now) now3 = false) ∧
    (∀ (st : CtrlState) (now now2 now3 : DateTime), st.initialized = true →
      now2.valid = true → now3.yOff = now2.yOff → now3.m = now2.m →
      isPumpExerciseTime
        (markPumpExerciseComplete (markPumpExerciseComplete st now) now2) now3 = false) := by
  refine ⟨?_, ?_, ?_, pump_false_after_mark, ?_⟩
  · intro st now h
    unfold isPumpExerciseTime
    rw [if_pos]
    simp [h]
  · intro st now hvac hrun
    unfold isPumpExerciseTime
    split
    · rfl
    · split
      · rfl
      · rw [if_pos (show isVacationMode st now = true ∧
            st.vacationMode.runPumpExercise = false from ⟨hvac, hrun⟩)]
  · intro st now hinit hen hnv
    unfold isPumpExerciseTime
    rw [if_neg (by simp [hen]), if_neg (by simp [hinit]), if_neg hnv]
    constructor
    · intro h
      split at h
      · rename_i hmatch
        split at h
        · exact absurd h (by simp)
        · rename_i hlast
          refine ⟨hmatch.1, hmatch.2.1, hmatch.2.2, ?_⟩
          by_cases h1 : st.pumpExercise.lastRun.isValid = true
          · by_cases h2 : st.pumpExercise.lastRun.year = now.year
            · right
              right
              intro hmEq
              exact hlast ⟨h1, h2, hmEq⟩
            · right
              left
              exact h2
          · left
            simpa using h1
      · exact absurd h (by simp)
    · intro h
      rw [if_pos ⟨h.1, h.2.1, h.2.2.1⟩, if_neg]
      intro hc
      rcases h.2.2.2 with h4 | h4 | h4
      · rw [hc.1] at h4
        exact absurd h4 (by simp)
      · exact h4 hc.2.1
      · exact h4 hc.2.2
  · intro st now now2 now3 hinit hval hy hm
    exact pump_false_after_mark (markPumpExerciseComplete st now) now2 now3
      (by simp [markPumpExerciseComplete, hinit]) hval hy hm

/-- Witness for C8: concrete controller with pump exercise due at
2024-03-15 03:30; the trigger fires there and stays off after marking. -/
theorem claimC8_witness :
    (exStPump.initialized = true ∧ (DateTime.make 2024 3 15 3 30 0).valid = true) ∧
    isPumpExerciseTime exStPump (DateTime.make 2024 3 15 3 30 0) = true ∧
    isPumpExerciseTime
      (markPumpExerciseComplete exStPump (DateTime.make 2024 3 15 3 30 0))
      (DateTime.make 2024 3 15 4 0 0) = false := by
  refine ⟨⟨by decide, by decide⟩, ?_, ?_⟩
  · exact (claimC8_pump_exercise_trigger.2.2.1 exStPump
      (DateTime.make 2024 3 15 3 30 0) (by decide) (by decide) (by decide)).mpr (by decide)
  · exact claimC8_pump_exercise_trigger.2.2.2.1 exStPump
      (DateTime.make 2024 3 15 3 30 0) (DateTime.make 2024 3 15 4 0 0)
      (by decide) (by decide) (by decide) (by decide)

/-- Claim C5: for an enabled schedule whose day mask includes `now`'s
day-of-week, the active check follows the WindowSpan semantics — same-day
half-open window when `startMinutes ≤ endMinutes` (so a zero-length window
is never active), wrap-around disjunction when `startMinutes > endMinutes`;
concretely a 23:00-01:00 all-days schedule is active at 23:30 and 00:30
and inactive at 12:00. -/
theorem claimC5_window_span_semantics :
    (∀ (st : CtrlState) (now : DateTime) (scheduleId : Nat) (sched : Schedule),
      st.initialized = true →
      findSchedule st.schedules scheduleId = some sched →
      sched.enabled = true →
      sched.isDayEnabled now.dayOfTheWeek = true →
      ((sched.startHour * 60 + sched.startMinute ≤ sched.endHour * 60 + sched.endMinute →
        (isWithinSchedule st now scheduleId = true ↔
          (sched.startHour * 60 + sched.startMinute ≤ now.hh * 60 + now.mm ∧
            now.hh * 60 + now.mm < sched.endHour * 60 + sched.endMinute))) ∧
       (sched.endHour * 60 + sched.endMinute < sched.startHour * 60 + sched.startMinute →
        (isWithinSchedule st now scheduleId = true ↔
          (sched.startHour * 60 + sched.startMinute ≤ now.hh * 60 + now.mm ∨
            now.hh * 60 + now.mm < sched.endHour * 60 + sched.endMinute))))) ∧
    (∀ (st : CtrlState) (now : DateTime) (scheduleId : Nat) (sched : Schedule),
      findSchedule st.schedules scheduleId = some sched →
      sched.startHour * 60 + sched.startMinute = sched.endHour * 60 + sched.endMinute →
      isWithinSchedule st now scheduleId = false) ∧
    isWithinSchedule exStSpan (DateTime.make 2024 1 3 23 30 0) 1 = true ∧
    isWithinSchedule exStSpan (DateTime.make 2024 1 4 0 30 0) 1 = true ∧
    isWithinSchedule exStSpan (DateTime.make 2024 1 3 12 0 0) 1 = false := by
  refine ⟨?_, ?_, by decide, by decide, by decide⟩
  · intro st now scheduleId sched hinit hfind hen hday
    have hw : isWithinSchedule st now scheduleId =
        isTimeInRange now sched.startHour sched.startMinute
          sched.endHour sched.endMinute := by
      simp only [isWithinSchedule, hinit, hfind, hen, hday]
      simp
    constructor
    · intro hle
      rw [hw]
      unfold isTimeInRange
      rw [if_pos hle]
      simp
    · intro hlt
      rw [hw]
      unfold isTimeInRange
      rw [if_neg (by omega)]
      simp
  · intro st now scheduleId sched hfind heq
    by_cases hinit : st.initialized = true
    · by_cases hen : sched.enabled = true
      · by_cases hday : sched.isDayEnabled now.dayOfTheWeek = true
        · have hw : isWithinSchedule st now scheduleId =
              isTimeInRange now sched.startHour sched.startMinute
                sched.endHour sched.endMinute := by
            simp only [isWithinSchedule, hinit, hfind, hen, hday]
            simp
          rw [hw]
          unfold isTimeInRange
          rw [if_pos (le_of_eq heq)]
          simp only [decide_eq_false_iff_not]
          omega
        · simp only [isWithinSchedule, hinit, hfind]
          simp [hday]
      · simp only [isWithinSchedule, hinit, hfind]
        simp [hen]
    · simp only [isWithinSchedule]
      simp [hinit]

/-- Witness for C5: the general window-span equivalence applied to the
concrete 23:00-01:00 schedule at 23:30. -/
theorem claimC5_witness :
    (exStSpan.initialized = true ∧
      findSchedule exStSpan.schedules 1 = some exSchedSpan ∧
      exSchedSpan.enabled = true ∧
      exSchedSpan.isDayEnabled ((DateTime.make 2024 1 3 23 30 0).dayOfTheWeek) = true) ∧
    isWithinSchedule exStSpan (DateTime.make 2024 1 3 23 30 0) 1 = true := by
  refine ⟨⟨by decide, by decide, by decide, by decide⟩, ?_⟩
  exact ((claimC5_window_span_semantics.1 exStSpan (DateTime.make 2024 1 3 23 30 0) 1
    exSchedSpan (by decide) (by decide) (by decide) (by decide)).2 (by decide)).mpr
    (by decide)

/-- Claim C9: with vacation mode enabled and `now` within
`[startDate, endDate]`, `isWithinAnySchedule` is false regardless of the
schedules held; and `isVacationMode` is true exactly when vacation mode is
enabled and `now` lies in the date range, for an initialized controller. -/
theorem claimC9_vacation_override :
    (∀ (st : CtrlState) (now : DateTime),
      st.initialized = true →
      st.vacationMode.enabled = true →
      st.vacationMode.startDate.unixtime ≤ now.unixtime →
      now.unixtime ≤ st.vacationMode.endDate.unixtime →
      isWithinAnySchedule st now = false) ∧
    (∀ (st : CtrlState) (now : DateTime),
      st.initialized = true →
      (isVacationMode st now = true ↔
        (st.vacationMode.enabled = true ∧
          st.vacationMode.startDate.unixtime ≤ now.unixtime ∧
          now.unixtime ≤ st.vacationMode.endDate.unixtime))) := by
  constructor
  · intro st now hinit hen h1 h2
    unfold isWithinAnySchedule
    rw [if_neg (by simp [hinit]), if_pos ⟨hen, h1, h2⟩]
  · intro st now hinit
    unfold isVacationMode
    constructor
    · intro h
      by_cases hen : st.vacationMode.enabled = true
      · rw [if_neg (by simp [hen]), if_neg (by simp [hinit])] at h
        by_cases hr : st.vacationMode.startDate.unixtime ≤ now.unixtime ∧
            now.unixtime ≤ st.vacationMode.endDate.unixtime
        · exact ⟨hen, hr⟩
        · rw [if_neg hr] at h
          exact absurd h (by simp)
      · rw [if_pos (by simp [hen])] at h
        exact absurd h (by simp)
    · intro ⟨hen, h1, h2⟩
      rw [if_neg (by simp [hen]), if_neg (by simp [hinit]), if_pos ⟨h1, h2⟩]

/-- Witness for C9: vacation covering 2024 suppresses the (otherwise
active) 23:00-01:00 schedule at 2024-01-03 23:30. -/
theorem claimC9_witness :
    (exStVac.initialized = true ∧ exStVac.vacationMode.enabled = true ∧
      exStVac.vacationMode.startDate.unixtime ≤
        (DateTime.make 2024 1 3 23 30 0).unixtime ∧
      (DateTime.make 2024 1 3 23 30 0).unixtime ≤
        exStVac.vacationMode.endDate.unixtime ∧
      isWithinSchedule exStVac (DateTime.make 2024 1 3 23 30 0) 1 = true) ∧
    isWithinAnySchedule exStVac (DateTime.make 2024 1 3 23 30 0) = false ∧
    isVacationMode exStVac (DateTime.make 2024 1 3 23 30 0) = true := by
  refine ⟨⟨by decide, by decide, by decide, by decide, by decide⟩, ?_, ?_⟩
  · exact claimC9_vacation_override.1 exStVac (DateTime.make 2024 1 3 23 30 0)
      (by decide) (by decide) (by decide) (by decide)
  · exact (claimC9_vacation_override.2 exStVac (DateTime.make 2024 1 3 23 30 0)
      (by decide)).mpr ⟨by decide, by decide, by decide⟩

theorem updateGo_found (scheduleId : Nat) (schedule x : Schedule) :
    ∀ ss : List Schedule, findSchedule ss scheduleId = some x →
      (updateGo scheduleId schedule ss).1 = true := by
  intro ss
  induction ss with
  | nil => intro h; exact absurd h (by simp [findSchedule])
  | cons hd tl ih =>
    intro h
    unfold updateGo
    by_cases hh : hd.id = scheduleId
    · rw [if_pos hh]
    · rw [if_neg hh]
      apply ih
      unfold findSchedule at h ⊢
      have hb : (hd.id == scheduleId) = false := by simpa using hh
      rw [List.find?_cons, hb] at h
      exact h

/-- Counterexample for C3: before `begin()` (so `initialized = false`),
`addSchedule` reports success and mutates the schedule set — the claimed
fail-fast gating does not exist for the schedule-mutating operations. -/
theorem claimC3_counterexample :
    exUninit.initialized = false ∧
    (addSchedule exUninit exSchedWeek).1 = true ∧
    (addSchedule exUninit exSchedWeek).2.schedules ≠ exUninit.schedules := by
  decide

/-- Claim C3 (amended): only the clock-reading/hardware operations are
gated on initialization — before a successful `begin()`,
`markPumpExerciseComplete` is a no-op and the schedule/vacation queries and
`getNextScheduledStart` return their failure values; but `addSchedule`,
`updateSchedule`, `removeSchedule`, `clearAllSchedules`, `setVacationMode`
and `setPumpExercise` are not gated: called before `begin()` they behave
exactly as usual, reporting success and mutating the schedule, vacation and
pump-exercise state. -/
theorem claimC3_initialization_gating_amended :
    (∀ (st : CtrlState) (now : DateTime), st.initialized = false →
      markPumpExerciseComplete st now = st) ∧
    (∀ (st : CtrlState) (now : DateTime), st.initialized = false →
      isWithinAnySchedule st now = false) ∧
    (∀ (st : CtrlState) (now : DateTime) (scheduleId : Nat), st.initialized = false →
      isWithinSchedule st now scheduleId = false) ∧
    (∀ (st : CtrlState) (now : DateTime), st.initialized = false →
      isVacationMode st now = false) ∧
    (∀ (st : CtrlState) (now : DateTime), st.initialized = false →
      isPumpExerciseTime st now = false) ∧
    (∀ (st : CtrlState) (now : DateTime), st.initialized = false →
      getNextScheduledStart st now = DateTime.invalid) ∧
    (∀ (st : CtrlState) (s : Schedule), st.initialized = false →
      st.schedules.length < MAX_SCHEDULES →
      (addSchedule st s).1 = true ∧
      (addSchedule st s).2.schedules = st.schedules ++
        [if s.id = 0 then { s with id := getNextFreeScheduleId st.schedules } else s]) ∧
    (∀ (st : CtrlState) (e : Bool) (d1 d2 : DateTime), st.initialized = false →
      (setVacationMode st e d1 d2).vacationMode.enabled = e ∧
      (setVacationMode st e d1 d2).vacationMode.startDate = d1 ∧
      (setVacationMode st e d1 d2).vacationMode.endDate = d2) ∧
    (∀ (st : CtrlState) (e : Bool) (dm h mi du : Nat), st.initialized = false →
      (setPumpExercise st e dm h mi du).pumpExercise =
        { enabled := e
          dayOfMonth := dm
          hour := h
          minute := mi
          durationSeconds := du
          lastRun := st.pumpExercise.lastRun }) ∧
    (∀ st : CtrlState, st.initialized = false →
      (clearAllSchedules st).schedules = []) ∧
    (∀ (st : CtrlState) (scheduleId : Nat) (s x : Schedule), st.initialized = false →
      findSchedule st.schedules scheduleId = some x →
      (updateSchedule st scheduleId s).1 = true) ∧
    (∀ (st : CtrlState) (scheduleId : Nat) (x : Schedule), st.initialized = false →
      findSchedule st.schedules scheduleId = some x →
      (removeSchedule st scheduleId).1 = true) := by
  refine ⟨?_, ?_, ?_, ?_, ?_, ?_, ?_, ?_, ?_, ?_, ?_, ?_⟩
  · intro st now h
    simp [markPumpExerciseComplete, h]
  · intro st now h
    simp [isWithinAnySchedule, h]
  · intro st now i h
    simp [isWithinSchedule, h]
  · intro st now h
    by_cases hen : st.vacationMode.enabled = true
    · simp [isVacationMode, h, hen]
    · simp [isVacationMode, hen]
  · intro st now h
    by_cases hen : st.pumpExercise.enabled = true
    · simp [isPumpExerciseTime, h, hen]
    · simp [isPumpExerciseTime, hen]
  · intro st now h
    simp [getNextScheduledStart, h]
  · intro st s _ hlen
    unfold addSchedule
    rw [if_neg (by omega)]
    constructor
    · rfl
    · by_cases hid : s.id = 0
      · simp [hid]
      · simp [hid]
  · intro st e d1 d2 _
    refine ⟨?_, ?_, ?_⟩ <;> simp [setVacationMode]
  · intro st e dm h mi du _
    simp [setPumpExercise]
  · intro st _
    simp [clearAllSchedules]
  · intro st i s x _ hfind
    exact updateGo_found i s x st.schedules hfind
  · intro st i x _ hfind
    unfold removeSchedule
    rw [if_pos]
    apply List.any_eq_true.mpr
    refine ⟨x, List.mem_of_find?_eq_some hfind, ?_⟩
    have := List.find?_some hfind
    simpa using this

/-- Witness for the amended C3: concrete uninitialized controller —
`markPumpExerciseComplete` is a no-op while `addSchedule` succeeds. -/
theorem claimC3_witness :
    (exUninit.initialized = false ∧ exUninit.schedules.length < MAX_SCHEDULES) ∧
    markPumpExerciseComplete exUninit (DateTime.make 2024 1 3 7 0 0) = exUninit ∧
    (addSchedule exUninit exSchedWeek).1 = true := by
  refine ⟨⟨by decide, by decide⟩, ?_, ?_⟩
  · exact claimC3_initialization_gating_amended.1 exUninit
      (DateTime.make 2024 1 3 7 0 0) (by decide)
  · exact (claimC3_initialization_gating_amended.2.2.2.2.2.2.1 exUninit exSchedWeek
      (by decide) (by decide)).1

/-- Claim C10: the only buffer-length check before the schedule-record
loop is `dataSize >= 4` — on a 4-byte buffer whose valid header declares
2 records, the decode succeeds instead of failing, and the record loop
reads offsets (up to 4 + 39*2 - 1 = 81) past the end of the supplied
data: an out-of-bounds read in the C++ source, where only the trailing
vacation/pump records are length-guarded. -/
theorem claimC10_decode_loop_overrun :
    byteAt exBufC10 0 = 0xD3 ∧ byteAt exBufC10 1 = 0x23 ∧
    byteAt exBufC10 2 = 1 ∧ byteAt exBufC10 3 = 2 ∧
    exBufC10.length < 4 + 39 * byteAt exBufC10 3 ∧
    (deserializeSchedules exSt0 (some exBufC10)).1 = true ∧
    ((parseLoopReadOffsets 4 (byteAt exBufC10 3)).filter
      (fun i => exBufC10.length ≤ i)).length = 78 := by
  decide

theorem deserialize_eq_of_header (st : CtrlState) (buf : List Nat)
    (h4 : 4 ≤ buf.length) (h0 : byteAt buf 0 = 0xD3) (h1 : byteAt buf 1 = 0x23)
    (h2 : byteAt buf 2 = 1) (h3 : byteAt buf 3 ≤ MAX_SCHEDULES) :
    deserializeSchedules st (some buf) =
      (true,
        { st with
            schedules := parseLoop buf 4 (byteAt buf 3)
            vacationMode :=
              if 4 + 39 * byteAt buf 3 + sizeofVacationMode ≤ buf.length then
                parseVac buf (4 + 39 * byteAt buf 3)
              else st.vacationMode
            pumpExercise :=
              if 4 + 39 * byteAt buf 3 + sizeofVacationMode ≤ buf.length then
                (if 4 + 39 * byteAt buf 3 + sizeofVacationMode + sizeofPumpExercise ≤
                    buf.length then
                  parsePump buf (4 + 39 * byteAt buf 3 + sizeofVacationMode)
                else st.pumpExercise)
              else
                (if 4 + 39 * byteAt buf 3 + sizeofPumpExercise ≤ buf.length then
                  parsePump buf (4 + 39 * byteAt buf 3)
                else st.pumpExercise) }) := by
  simp only [deserializeSchedules]
  rw [if_neg (by omega), if_neg (by simp [h0, h1]), if_neg (by simp [h2]),
    if_neg (by omega)]
  by_cases hv : 4 + 39 * byteAt buf 3 + sizeofVacationMode ≤ buf.length
  · simp only [if_pos hv]
  · simp only [if_neg hv]

/-- Counterexample for C2: a buffer with a valid zero-schedule header that
ends before the vacation record (17 bytes, vacation needs offset
4 + `sizeofVacationMode`) nevertheless overwrites the pump-exercise state:
because the skip of the vacation record does not advance the read offset,
the 13 bytes after the header are consumed as a pump-exercise record — the
prior in-memory pump-exercise value does not remain untouched. -/
theorem claimC2_counterexample :
    exBufShort.length < 4 + 39 * byteAt exBufShort 3 + sizeofVacationMode ∧
    (deserializeSchedules exSt0 (some exBufShort)).1 = true ∧
    (deserializeSchedules exSt0 (some exBufShort)).2.pumpExercise ≠
      exSt0.pumpExercise := by
  decide

/-- Claim C2 (amended): decode fails, leaving the state unchanged, on a
null buffer, a buffer shorter than 4 bytes, wrong magic bytes, a version
byte other than 1, or a count byte above `MAX_SCHEDULES`; when the header
validates, decode succeeds, a buffer ending before the vacation record
leaves the vacation state untouched, and a buffer with fewer than
`sizeofPumpExercise` bytes after the records read so far leaves the
pump-exercise state untouched — but when the vacation record is skipped
and at least `sizeofPumpExercise` bytes remain after the schedule records,
the pump-exercise state is overwritten from the vacation record's offset
(the skip does not advance the offset). -/
theorem claimC2_decode_validation_amended :
    (∀ st : CtrlState, deserializeSchedules st none = (false, st)) ∧
    (∀ (st : CtrlState) (buf : List Nat), buf.length < 4 →
      deserializeSchedules st (some buf) = (false, st)) ∧
    (∀ (st : CtrlState) (buf : List Nat),
      ¬(byteAt buf 0 = 0xD3 ∧ byteAt buf 1 = 0x23) →
      deserializeSchedules st (some buf) = (false, st)) ∧
    (∀ (st : CtrlState) (buf : List Nat), byteAt buf 2 ≠ 1 →
      deserializeSchedules st (some buf) = (false, st)) ∧
    (∀ (st : CtrlState) (buf : List Nat), MAX_SCHEDULES < byteAt buf 3 →
      deserializeSchedules st (some buf) = (false, st)) ∧
    (∀ (st : CtrlState) (buf : List Nat),
      4 ≤ buf.length → byteAt buf 0 = 0xD3 → byteAt buf 1 = 0x23 →
      byteAt buf 2 = 1 → byteAt buf 3 ≤ MAX_SCHEDULES →
      (deserializeSchedules st (some buf)).1 = true ∧
      (buf.length < 4 + 39 * byteAt buf 3 + sizeofVacationMode →
        (deserializeSchedules st (some buf)).2.vacationMode = st.vacationMode) ∧
      (4 + 39 * byteAt buf 3 + sizeofVacationMode ≤ buf.length →
        (deserializeSchedules st (some buf)).2.vacationMode =
          parseVac buf (4 + 39 * byteAt buf 3)) ∧
      (buf.length < 4 + 39 * byteAt buf 3 + sizeofPumpExercise →
        (deserializeSchedules st (some buf)).2.pumpExercise = st.pumpExercise) ∧
      (4 + 39 * byteAt buf 3 + sizeofVacationMode ≤ buf.length →
        buf.length < 4 + 39 * byteAt buf 3 + sizeofVacationMode + sizeofPumpExercise →
        (deserializeSchedules st (some buf)).2.pumpExercise = st.pumpExercise) ∧
      (4 + 39 * byteAt buf 3 + sizeofPumpExercise ≤ buf.length →
        buf.length < 4 + 39 * byteAt buf 3 + sizeofVacationMode →
        (deserializeSchedules st (some buf)).2.pumpExercise =
          parsePump buf (4 + 39 * byteAt buf 3))) := by
  refine ⟨fun st => rfl, ?_, ?_, ?_, ?_, ?_⟩
  · intro st buf h
    simp only [deserializeSchedules]
    rw [if_pos h]
  · intro st buf h
    simp only [deserializeSchedules]
    by_cases h4 : buf.length < 4
    · rw [if_pos h4]
    · rw [if_neg h4, if_pos h]
  · intro st buf h
    simp only [deserializeSchedules]
    by_cases h4 : buf.length < 4
    · rw [if_pos h4]
    · by_cases hm : byteAt buf 0 = 0xD3 ∧ byteAt buf 1 = 0x23
      · rw [if_neg h4, if_neg (by simpa using hm), if_pos h]
      · rw [if_neg h4, if_pos hm]
  · intro st buf h
    simp only [deserializeSchedules]
    by_cases h4 : buf.length < 4
    · rw [if_pos h4]
    · by_cases hm : byteAt buf 0 = 0xD3 ∧ byteAt buf 1 = 0x23
      · by_cases h2 : byteAt buf 2 = 1
        · rw [if_neg h4, if_neg (by simpa using hm), if_neg (by simpa using h2),
            if_pos h]
        · rw [if_neg h4, if_neg (by simpa using hm), if_pos h2]
      · rw [if_neg h4, if_pos hm]
  · intro st buf h4 h0 h1 h2 h3
    rw [deserialize_eq_of_header st buf h4 h0 h1 h2 h3]
    refine ⟨rfl, ?_, ?_, ?_, ?_, ?_⟩
    · intro hlen
      simp only
      rw [if_neg (by omega)]
    · intro hlen
      simp only
      rw [if_pos hlen]
    · intro hlen
      simp only
      rw [if_neg (by simp [sizeofVacationMode, sizeofPumpExercise] at hlen ⊢; omega),
        if_neg (by simp [sizeofVacationMode, sizeofPumpExercise] at hlen ⊢; omega)]
    · intro hv hlen
      simp only
      rw [if_pos hv, if_neg (by omega)]
    · intro hp hv
      simp only
      rw [if_neg (by omega), if_pos hp]

/-- Witness for the amended C2: the header-valid 17-byte buffer — decode
succeeds, vacation is untouched, and the pump record is read from the
vacation record's offset 4. -/
theorem claimC2_witness :
    (4 ≤ exBufShort.length ∧ byteAt exBufShort 0 = 0xD3 ∧
      byteAt exBufShort 1 = 0x23 ∧ byteAt exBufShort 2 = 1 ∧
      byteAt exBufShort 3 ≤ MAX_SCHEDULES ∧
      4 + 39 * byteAt exBufShort 3 + sizeofPumpExercise ≤ exBufShort.length ∧
      exBufShort.length < 4 + 39 * byteAt exBufShort 3 + sizeofVacationMode) ∧
    (deserializeSchedules exSt0 (some exBufShort)).1 = true ∧
    (deserializeSchedules exSt0 (some exBufShort)).2.vacationMode =
      exSt0.vacationMode ∧
    (deserializeSchedules exSt0 (some exBufShort)).2.pumpExercise =
      parsePump exBufShort 4 := by
  have h := claimC2_decode_validation_amended.2.2.2.2.2 exSt0 exBufShort
    (by decide) (by decide) (by decide) (by decide) (by decide)
  refine ⟨⟨by decide, by decide, by decide, by decide, by decide, by decide, by decide⟩,
    h.1, h.2.1 (by decide), ?_⟩
  have hp := h.2.2.2.2.2 (by decide) (by decide)
  simpa using hp

theorem any_id_eq_true_iff (ss : List Schedule) (j : Nat) :
    ss.any (fun s => s.id == j) = true ↔ j ∈ ss.map Schedule.id := by
  simp [List.any_eq_true, List.mem_map]

/-- When the held ids are exactly `1..k`, the free-id scan stops at
`k + 1`. -/
theorem nextFreeGo_range (ss : List Schedule) (k : Nat)
    (hids : ss.map Schedule.id = List.range' 1 k) (hk : k + 1 < 255) :
    ∀ (fuel j : Nat), 1 ≤ j → j ≤ k + 1 → k + 1 ≤ j + fuel →
      nextFreeGo ss fuel j = k + 1 := by
  intro fuel
  induction fuel with
  | zero =>
    intro j h1 h2 h3
    unfold nextFreeGo
    omega
  | succ f ih =>
    intro j h1 h2 h3
    unfold nextFreeGo
    by_cases hj : j ≤ k
    · rw [if_pos, if_pos (by omega)]
      · exact ih (j + 1) (by omega) (by omega) (by omega)
      · rw [any_id_eq_true_iff, hids, List.mem_range']
        exact ⟨j - 1, by omega, by omega⟩
    · have hj1 : j = k + 1 := by omega
      rw [if_neg]
      · exact hj1
      · rw [any_id_eq_true_iff, hids, List.mem_range']
        rintro ⟨i, hi, he⟩
        omega

theorem getNextFreeScheduleId_range (ss : List Schedule) (k : Nat)
    (hids : ss.map Schedule.id = List.range' 1 k) (hk : k + 1 < 255) :
    getNextFreeScheduleId ss = k + 1 := by
  unfold getNextFreeScheduleId
  exact nextFreeGo_range ss k hids hk 254 1 (by omega) (by omega) (by omega)

/-- Running `addSchedule` with auto-assigned ids over a state holding ids
`1..k` succeeds throughout and extends the ids to `1..k + n`. -/
theorem addAll_auto (ss : List Schedule) :
    ∀ (st : CtrlState) (k : Nat),
      (∀ s ∈ ss, s.id = 0) →
      st.schedules.map Schedule.id = List.range' 1 k →
      k + ss.length ≤ MAX_SCHEDULES →
      (addAll st ss).1 = List.replicate ss.length true ∧
      (addAll st ss).2.schedules.map Schedule.id = List.range' 1 (k + ss.length) := by
  induction ss with
  | nil =>
    intro st k _ hids _
    simpa [addAll] using hids
  | cons s rest ih =>
    intro st k hzero hids hcap
    have hlen : st.schedules.length = k := by
      have := congrArg List.length hids
      simpa using this
    have hguard : ¬(MAX_SCHEDULES ≤ st.schedules.length) := by
      simp only [List.length_cons] at hcap
      omega
    have hid0 : s.id = 0 := hzero s (List.mem_cons_self s rest)
    have hfree : getNextFreeScheduleId st.schedules = k + 1 := by
      apply getNextFreeScheduleId_range st.schedules k hids
      have : MAX_SCHEDULES = 10 := rfl
      omega
    have hadd : addSchedule st s =
        (true, { st with schedules := st.schedules ++ [{ s with id := k + 1 }] }) := by
      unfold addSchedule
      rw [if_neg hguard, if_pos hid0, hfree]
    have hids2 : ({ st with schedules := st.schedules ++ [{ s with id := k + 1 }] } :
        CtrlState).schedules.map Schedule.id = List.range' 1 (k + 1) := by
      simp only [List.map_append, hids]
      rw [List.range'_concat 1 k]
      simp [Nat.add_comm 1 k]
    have hrest := ih { st with schedules := st.schedules ++ [{ s with id := k + 1 }] }
      (k + 1) (fun x hx => hzero x (List.mem_cons_of_mem s hx)) hids2
      (by simp only [List.length_cons] at hcap; omega)
    unfold addAll
    rw [hadd]
    refine ⟨?_, ?_⟩
    · simp only [hrest.1, List.length_cons, List.replicate_succ]
    · have := hrest.2
      simpa [List.length_cons, Nat.add_assoc, Nat.add_comm 1 rest.length] using this

/-- Claim C7: from an empty schedule set, ten `addSchedule` calls with
`schedule.id == 0` all succeed and assign ids exactly 1..10 in order; an
eleventh call fails and leaves the set unchanged. -/
theorem claimC7_auto_ids_capacity :
    ∀ (st : CtrlState) (ss : List Schedule) (s11 : Schedule),
      st.schedules = [] → ss.length = 10 → (∀ s ∈ ss, s.id = 0) →
      (addAll st ss).1 = List.replicate 10 true ∧
      (addAll st ss).2.schedules.map Schedule.id = [1, 2, 3, 4, 5, 6, 7, 8, 9, 10] ∧
      (addSchedule (addAll st ss).2 s11).1 = false ∧
      (addSchedule (addAll st ss).2 s11).2 = (addAll st ss).2 := by
  intro st ss s11 hst hlen hzero
  have h := addAll_auto ss st 0 hzero (by simp [hst]) (by simp [hlen]; rfl)
  have hids : (addAll st ss).2.schedules.map Schedule.id =
      [1, 2, 3, 4, 5, 6, 7, 8, 9, 10] := by
    rw [h.2, hlen]
    rfl
  have hlen10 : (addAll st ss).2.schedules.length = 10 := by
    have := congrArg List.length hids
    simpa using this
  have hfail : addSchedule (addAll st ss).2 s11 = (false, (addAll st ss).2) := by
    unfold addSchedule
    rw [if_pos (by rw [hlen10]; decide)]
  refine ⟨by rw [h.1, hlen], hids, ?_, ?_⟩
  · rw [hfail]
  · rw [hfail]

/-- Witness for C7: ten concrete auto-id adds from the empty controller,
then a failing eleventh. -/
theorem claimC7_witness :
    (exSt0.schedules = [] ∧
      (List.replicate 10 { exSchedWeek with id := 0 } : List Schedule).length = 10) ∧
    (addAll exSt0 (List.replicate 10 { exSchedWeek with id := 0 })).1 =
      List.replicate 10 true ∧
    (addAll exSt0 (List.replicate 10 { exSchedWeek with id := 0 })).2.schedules.map
      Schedule.id = [1, 2, 3, 4, 5, 6, 7, 8, 9, 10] ∧
    (addSchedule (addAll exSt0 (List.replicate 10 { exSchedWeek with id := 0 })).2
      { exSchedWeek with id := 0 }).1 = false := by
  have h := claimC7_auto_ids_capacity exSt0
    (List.replicate 10 { exSchedWeek with id := 0 }) { exSchedWeek with id := 0 }
    (by decide) (by decide) (by decide)
  exact ⟨⟨by decide, by decide⟩, h.1, h.2.1, h.2.2.1⟩

theorem filter_ge_succ_length_lt (j : Nat) :
    ∀ (ss : List Schedule) (x : Schedule), x ∈ ss → x.id = j →
      (ss.filter (fun s => decide (j + 1 ≤ s.id))).length <
        (ss.filter (fun s => decide (j ≤ s.id))).length := by
  intro ss
  induction ss with
  | nil => intro x hx; exact absurd hx (List.not_mem_nil x)
  | cons a t ih =>
    intro x hx hxj
    have hmono : (t.filter (fun s => decide (j + 1 ≤ s.id))).length ≤
        (t.filter (fun s => decide (j ≤ s.id))).length := by
      apply List.Sublist.length_le
      apply List.monotone_filter_right
      intro s hs
      simp only [decide_eq_true_eq] at hs ⊢
      omega
    rcases List.mem_cons.mp hx with hxa | hxt
    · subst hxa
      rw [List.filter_cons, List.filter_cons]
      rw [if_neg (by simp [hxj]), if_pos (by simp [hxj])]
      simpa using Nat.lt_succ_of_le hmono
    · have hlt := ih x hxt hxj
      rw [List.filter_cons, List.filter_cons]
      by_cases h1 : j + 1 ≤ a.id
      · rw [if_pos (by simpa using h1), if_pos (by simp; omega)]
        simpa using hlt
      · rw [if_neg (by simpa using h1)]
        by_cases h0 : j ≤ a.id
        · rw [if_pos (by simpa using h0)]
          simp only [List.length_cons]
          omega
        · rw [if_neg (by simpa using h0)]
          exact hlt

/-- The free-id scan never returns an id already held, as long as the scan
cannot exhaust its 254-step budget. -/
theorem nextFreeGo_not_mem (ss : List Schedule) :
    ∀ (fuel j : Nat),
      (ss.filter (fun s => decide (j ≤ s.id))).length < fuel →
      j + (ss.filter (fun s => decide (j ≤ s.id))).length < 255 →
      nextFreeGo ss fuel j ∉ ss.map Schedule.id := by
  intro fuel
  induction fuel with
  | zero => intro j h1 _; exact absurd h1 (by omega)
  | succ f ih =>
    intro j h1 h2
    by_cases hany : ss.any (fun s => s.id == j) = true
    · obtain ⟨x, hx, hxj⟩ : ∃ x ∈ ss, x.id = j := by
        have := (any_id_eq_true_iff ss j).mp hany
        simpa [List.mem_map] using this
      have hwit : x ∈ ss.filter (fun s => decide (j ≤ s.id)) := by
        rw [List.mem_filter]
        exact ⟨hx, by simp [hxj]⟩
      have hpos : 1 ≤ (ss.filter (fun s => decide (j ≤ s.id))).length :=
        List.length_pos.mpr (List.ne_nil_of_mem hwit)
      have hstep := filter_ge_succ_length_lt j ss x hx hxj
      unfold nextFreeGo
      rw [if_pos hany, if_pos (by omega)]
      exact ih (j + 1) (by omega) (by omega)
    · unfold nextFreeGo
      rw [if_neg hany]
      intro hmem
      apply hany
      rw [any_id_eq_true_iff]
      exact hmem

theorem getNextFreeScheduleId_not_mem (ss : List Schedule)
    (hlen : ss.length ≤ MAX_SCHEDULES) :
    getNextFreeScheduleId ss ∉ ss.map Schedule.id := by
  have hf : (ss.filter (fun s => decide (1 ≤ s.id))).length ≤ ss.length :=
    List.length_filter_le _ ss
  have h10 : MAX_SCHEDULES = 10 := rfl
  exact nextFreeGo_not_mem ss 254 1 (by omega) (by omega)

theorem updateGo_map_id (scheduleId : Nat) (schedule : Schedule) :
    ∀ ss : List Schedule,
      (updateGo scheduleId schedule ss).2.map Schedule.id = ss.map Schedule.id := by
  intro ss
  induction ss with
  | nil => rfl
  | cons a t ih =>
    unfold updateGo
    by_cases h : a.id = scheduleId
    · rw [if_pos h]
      simp [h]
    · rw [if_neg h]
      simp [ih]

theorem parseLoop_length (buf : List Nat) :
    ∀ (c off : Nat), (parseLoop buf off c).length = c := by
  intro c
  induction c with
  | zero => intro off; rfl
  | succ n ih =>
    intro off
    unfold parseLoop
    simp [ih]

/-- One controller operation preserves the id-uniqueness invariant, under
the auto-id side conditions. -/
theorem applyOp_inv (st : CtrlState) (op : COp) (hop : OpAuto op)
    (h : SchedInv st) : SchedInv (applyOp st op) := by
  obtain ⟨hnod, hlen⟩ := h
  cases op with
  | add s =>
    have hid0 : s.id = 0 := hop
    show SchedInv (addSchedule st s).2
    unfold addSchedule
    by_cases hg : MAX_SCHEDULES ≤ st.schedules.length
    · rw [if_pos hg]
      exact ⟨hnod, hlen⟩
    · rw [if_neg hg, if_pos hid0]
      constructor
      · simp only [List.map_append, List.map_cons, List.map_nil]
        rw [List.nodup_append]
        refine ⟨hnod, List.nodup_singleton _, ?_⟩
        intro a ha hb
        simp only [List.mem_singleton] at hb
        subst hb
        exact getNextFreeScheduleId_not_mem st.schedules hlen ha
      · simp only [List.length_append, List.length_singleton]
        omega
  | update i s =>
    show SchedInv (updateSchedule st i s).2
    unfold updateSchedule
    constructor
    · rw [updateGo_map_id]
      exact hnod
    · have hmap := congrArg List.length (updateGo_map_id i s st.schedules)
      simp only [List.length_map] at hmap
      show (updateGo i s st.schedules).2.length ≤ MAX_SCHEDULES
      omega
  | remove i =>
    show SchedInv (removeSchedule st i).2
    unfold removeSchedule
    by_cases hg : st.schedules.any (fun s => s.id == i) = true
    · rw [if_pos hg]
      constructor
      · exact hnod.sublist (List.Sublist.map Schedule.id (List.filter_sublist _))
      · have := List.length_filter_le (fun s => s.id != i) st.schedules
        simp only
        omega
    · rw [if_neg hg]
      exact ⟨hnod, hlen⟩
  | clear =>
    show SchedInv (clearAllSchedules st)
    refine ⟨?_, ?_⟩
    · simp [clearAllSchedules]
    · simp [clearAllSchedules]
  | load buf =>
    have hload : OpAuto (COp.load buf) = ((parseLoop buf 4 (byteAt buf 3)).map
        Schedule.id).Nodup := rfl
    rw [hload] at hop
    show SchedInv (deserializeSchedules st (some buf)).2
    simp only [deserializeSchedules]
    split
    · exact ⟨hnod, hlen⟩
    · split
      · exact ⟨hnod, hlen⟩
      · split
        · exact ⟨hnod, hlen⟩
        · split
          · exact ⟨hnod, hlen⟩
          · rename_i hc
            refine ⟨hop, ?_⟩
            show (parseLoop buf 4 (byteAt buf 3)).length ≤ MAX_SCHEDULES
            rw [parseLoop_length]
            omega

/-- Claim C4 (amended): id uniqueness holds after any operation sequence
in which `addSchedule` is only called with `id == 0` and every decoded
buffer carries pairwise-distinct ids; with an explicit duplicate id or a
buffer with repeated ids, duplicates are created (see the
counterexample). -/
theorem claimC4_unique_ids_amended :
    ∀ (ops : List COp) (st : CtrlState),
      (∀ op ∈ ops, OpAuto op) → SchedInv st →
      ((applyOps st ops).schedules.map Schedule.id).Nodup ∧
        (applyOps st ops).schedules.length ≤ MAX_SCHEDULES := by
  intro ops
  induction ops with
  | nil => intro st _ h; exact h
  | cons op rest ih =>
    intro st hops h
    have h1 : SchedInv (applyOp st op) :=
      applyOp_inv st op (hops op (List.mem_cons_self op rest)) h
    exact ih (applyOp st op) (fun o ho => hops o (List.mem_cons_of_mem op ho)) h1

/-- Counterexample for C4: `addSchedule` called twice with the same
explicit non-zero id succeeds both times and yields two schedules with
id 1 — ids are not unique after such a sequence. -/
theorem claimC4_counterexample :
    (addSchedule exSt0 exSchedSpan).1 = true ∧
    (addSchedule (addSchedule exSt0 exSchedSpan).2 exSchedSpan).1 = true ∧
    (addSchedule (addSchedule exSt0 exSchedSpan).2 exSchedSpan).2.schedules.map
      Schedule.id = [1, 1] ∧
    ¬((addSchedule (addSchedule exSt0 exSchedSpan).2 exSchedSpan).2.schedules.map
      Schedule.id).Nodup := by
  decide

/-- Witness for the amended C4: a concrete auto-id sequence (two adds, a
removal, a reload of a two-schedule buffer) keeps ids pairwise distinct. -/
theorem claimC4_witness :
    ((∀ op ∈ [COp.add { exSchedWeek with id := 0 },
        COp.add { exSchedWeek with id := 0 }, COp.remove 1], OpAuto op) ∧
      SchedInv exSt0) ∧
    ((applyOps exSt0 [COp.add { exSchedWeek with id := 0 },
        COp.add { exSchedWeek with id := 0 }, COp.remove 1]).schedules.map
      Schedule.id).Nodup := by
  refine ⟨⟨by decide, by decide⟩, ?_⟩
  exact (claimC4_unique_ids_amended
    [COp.add { exSchedWeek with id := 0 }, COp.add { exSchedWeek with id := 0 },
      COp.remove 1] exSt0 (by decide) (by decide)).1

/-! ## Byte-level lemmas for the persistence round trip -/

theorem length_writeBytes (buf bytes : List Nat) (off : Nat)
    (h : off + bytes.length ≤ buf.length) :
    (writeBytes buf off bytes).length = buf.length := by
  unfold writeBytes
  simp only [List.length_append, List.length_take, List.length_drop]
  omega

theorem byteAt_writeBytes_lt (buf bytes : List Nat) (off i : Nat)
    (hoff : off ≤ buf.length) (hi : i < off) :
    byteAt (writeBytes buf off bytes) i = byteAt buf i := by
  unfold byteAt writeBytes
  rw [List.getD_append _ _ _ _ (by simp only [List.length_take]; omega)]
  rw [List.getD_eq_getElem?_getD, List.getD_eq_getElem?_getD,
    List.getElem?_take_of_lt hi]

theorem byteAt_writeBytes_mid (buf bytes : List Nat) (off j : Nat)
    (hoff : off ≤ buf.length) (hj : j < bytes.length) :
    byteAt (writeBytes buf off bytes) (off + j) = bytes.getD j 0 := by
  unfold byteAt writeBytes
  rw [List.getD_append_right _ _ _ _ (by simp only [List.length_take]; omega)]
  have heq : off + j - (buf.take off).length = j := by
    simp only [List.length_take]
    omega
  rw [heq, List.getD_append _ _ _ _ hj]

theorem byteAt_writeBytes_ge (buf bytes : List Nat) (off i : Nat)
    (hoff : off + bytes.length ≤ buf.length) (hi : off + bytes.length ≤ i) :
    byteAt (writeBytes buf off bytes) i = byteAt buf i := by
  unfold byteAt writeBytes
  rw [List.getD_append_right _ _ _ _ (by simp only [List.length_take]; omega)]
  rw [List.getD_append_right _ _ _ _ (by simp only [List.length_take]; omega)]
  rw [List.getD_eq_getElem?_getD, List.getD_eq_getElem?_getD, List.getElem?_drop]
  have heq : off + bytes.length + (i - (buf.take off).length - bytes.length) = i := by
    simp only [List.length_take]
    omega
  rw [heq]

theorem boolByte_bne_zero (b : Bool) : (boolByte b != 0) = b := by
  cases b <;> rfl

/-- The C-string read recovers a written name: nonzero name bytes followed
by a null terminator. -/
theorem readCStringGo_spec (name : List Nat) :
    ∀ (buf : List Nat) (off fuel : Nat), name.length ≤ fuel →
      (∀ i, i < name.length → byteAt buf (off + i) = name.getD i 0) →
      (∀ b ∈ name, b ≠ 0) →
      byteAt buf (off + name.length) = 0 →
      readCStringGo buf off fuel = name := by
  induction name with
  | nil =>
    intro buf off fuel _ _ _ hz
    cases fuel with
    | zero => rfl
    | succ f =>
      unfold readCStringGo
      rw [if_pos]
      simpa using hz
  | cons a t ih =>
    intro buf off fuel hfuel hbytes hnz hz
    cases fuel with
    | zero => simp at hfuel
    | succ f =>
      unfold readCStringGo
      have ha : byteAt buf off = a := by
        have := hbytes 0 (by simp)
        simpa using this
      rw [if_neg (by rw [ha]; exact hnz a (List.mem_cons_self a t))]
      rw [ha]
      congr 1
      apply ih buf (off + 1) f (by simpa using hfuel)
      · intro i hi
        have := hbytes (i + 1) (by simpa using Nat.succ_lt_succ hi)
        rw [show off + (i + 1) = off + 1 + i by omega] at this
        simpa using this
      · intro b hb
        exact hnz b (List.mem_cons_of_mem a hb)
      · rw [show off + 1 + t.length = off + (a :: t).length by simp; omega]
        exact hz

theorem readCStringGo_congr (B Bp : List Nat) :
    ∀ (fuel off : Nat),
      (∀ i, off ≤ i → i < off + fuel → byteAt B i = byteAt Bp i) →
      readCStringGo B off fuel = readCStringGo Bp off fuel := by
  intro fuel
  induction fuel with
  | zero => intro off _; rfl
  | succ f ih =>
    intro off hag
    unfold readCStringGo
    have h0 : byteAt B off = byteAt Bp off := hag off (by omega) (by omega)
    rw [h0]
    split
    · rfl
    · rw [ih (off + 1) (fun i h1 h2 => hag i (by omega) (by omega))]

theorem parseSchedule_congr (B Bp : List Nat) (off : Nat)
    (hag : ∀ i, off ≤ i → i < off + 39 → byteAt B i = byteAt Bp i) :
    parseSchedule B off = parseSchedule Bp off := by
  unfold parseSchedule readCString
  rw [hag off (by omega) (by omega), hag (off + 1) (by omega) (by omega),
    hag (off + 2) (by omega) (by omega), hag (off + 3) (by omega) (by omega),
    hag (off + 4) (by omega) (by omega), hag (off + 5) (by omega) (by omega),
    hag (off + 6) (by omega) (by omega),
    readCStringGo_congr B Bp 31 (off + 7) (fun i h1 h2 => hag i (by omega) (by omega))]

theorem parseLoop_congr (B Bp : List Nat) :
    ∀ (c off : Nat),
      (∀ i, off ≤ i → i < off + 39 * c → byteAt B i = byteAt Bp i) →
      parseLoop B off c = parseLoop Bp off c := by
  intro c
  induction c with
  | zero => intro off _; rfl
  | succ n ih =>
    intro off hag
    unfold parseLoop
    rw [parseSchedule_congr B Bp off (fun i h1 h2 => hag i (by omega) (by omega)),
      ih (off + 39) (fun i h1 h2 => hag i (by omega) (by omega))]

theorem map_mod_id (l : List Nat) (h : ∀ b ∈ l, b < 256) :
    l.map (fun b => b % 256) = l := by
  conv_rhs => rw [show l = l.map id from (List.map_id l).symm]
  apply List.map_congr_left
  intro a ha
  exact Nat.mod_eq_of_lt (h a ha)

theorem schedRecordBytes_length (s : Schedule) :
    (schedRecordBytes s).length = 8 + (s.name.take 31).length := by
  simp [schedRecordBytes]
  omega

theorem schedRecordBytes_length_le (s : Schedule) :
    (schedRecordBytes s).length ≤ 39 := by
  rw [schedRecordBytes_length]
  have := List.length_take 31 s.name
  omega

theorem length_serLoop : ∀ (ss : List Schedule) (buf : List Nat) (off : Nat),
    off + 39 * ss.length ≤ buf.length → (serLoop ss buf off).length = buf.length := by
  intro ss
  induction ss with
  | nil => intro buf off _; rfl
  | cons s rest ih =>
    intro buf off h
    simp only [List.length_cons] at h
    have hrec := schedRecordBytes_length_le s
    have hw : (writeBytes buf off (schedRecordBytes s)).length = buf.length :=
      length_writeBytes buf (schedRecordBytes s) off (by omega)
    unfold serLoop
    rw [ih (writeBytes buf off (schedRecordBytes s)) (off + 39) (by rw [hw]; omega)]
    exact hw

theorem byteAt_serLoop_lt : ∀ (ss : List Schedule) (buf : List Nat) (off i : Nat),
    off + 39 * ss.length ≤ buf.length → i < off →
    byteAt (serLoop ss buf off) i = byteAt buf i := by
  intro ss
  induction ss with
  | nil => intro buf off i _ _; rfl
  | cons s rest ih =>
    intro buf off i h hi
    simp only [List.length_cons] at h
    have hrec := schedRecordBytes_length_le s
    have hw : (writeBytes buf off (schedRecordBytes s)).length = buf.length :=
      length_writeBytes buf (schedRecordBytes s) off (by omega)
    unfold serLoop
    rw [ih (writeBytes buf off (schedRecordBytes s)) (off + 39) i (by rw [hw]; omega) (by omega)]
    exact byteAt_writeBytes_lt buf (schedRecordBytes s) off i (by omega) hi

/-- Decoding one record written by the serializer recovers the schedule. -/
theorem parseSchedule_writeBytes (buf : List Nat) (off : Nat) (s : Schedule)
    (hoff : off + 39 ≤ buf.length) (hs : s.WFBytes) :
    parseSchedule (writeBytes buf off (schedRecordBytes s)) off = s := by
  obtain ⟨hid, hdm, hsh, hsm, heh, hem, hnlen, hname⟩ := hs
  have htake : s.name.take 31 = s.name := List.take_of_length_le hnlen
  have hmap : (s.name.take 31).map (fun b => b % 256) = s.name := by
    rw [htake]
    exact map_mod_id s.name (fun b hb => (hname b hb).2)
  have hreclen : (schedRecordBytes s).length = 8 + s.name.length := by
    rw [schedRecordBytes_length, htake]
  have hofflen : off ≤ buf.length := by omega
  have hmid : ∀ j, j < 8 + s.name.length →
      byteAt (writeBytes buf off (schedRecordBytes s)) (off + j) =
        (schedRecordBytes s).getD j 0 := by
    intro j hj
    exact byteAt_writeBytes_mid buf (schedRecordBytes s) off j hofflen (by omega)
  have hb0 : byteAt (writeBytes buf off (schedRecordBytes s)) off = s.id := by
    have := hmid 0 (by omega)
    simpa [schedRecordBytes, Nat.mod_eq_of_lt hid] using this
  have hb1 : byteAt (writeBytes buf off (schedRecordBytes s)) (off + 1) = s.dayMask := by
    have := hmid 1 (by omega)
    simpa [schedRecordBytes, Nat.mod_eq_of_lt hdm] using this
  have hb2 : byteAt (writeBytes buf off (schedRecordBytes s)) (off + 2) = s.startHour := by
    have := hmid 2 (by omega)
    simpa [schedRecordBytes, Nat.mod_eq_of_lt hsh] using this
  have hb3 : byteAt (writeBytes buf off (schedRecordBytes s)) (off + 3) = s.startMinute := by
    have := hmid 3 (by omega)
    simpa [schedRecordBytes, Nat.mod_eq_of_lt hsm] using this
  have hb4 : byteAt (writeBytes buf off (schedRecordBytes s)) (off + 4) = s.endHour := by
    have := hmid 4 (by omega)
    simpa [schedRecordBytes, Nat.mod_eq_of_lt heh] using this
  have hb5 : byteAt (writeBytes buf off (schedRecordBytes s)) (off + 5) = s.endMinute := by
    have := hmid 5 (by omega)
    simpa [schedRecordBytes, Nat.mod_eq_of_lt hem] using this
  have hb6 : byteAt (writeBytes buf off (schedRecordBytes s)) (off + 6) =
      boolByte s.enabled := by
    have := hmid 6 (by omega)
    simpa [schedRecordBytes] using this
  have hbn : ∀ i, i < s.name.length →
      byteAt (writeBytes buf off (schedRecordBytes s)) (off + 7 + i) =
        s.name.getD i 0 := by
    intro i hi
    have hv := hmid (7 + i) (by omega)
    rw [show off + (7 + i) = off + 7 + i by omega] at hv
    rw [hv]
    have hstep : (schedRecordBytes s).getD (7 + i) 0 =
        ((s.name.take 31).map (fun b => b % 256) ++ [0]).getD i 0 := by
      rw [show 7 + i = i + 7 by omega]
      rfl
    rw [hstep, hmap, List.getD_append _ _ _ _ hi]
  have hbz : byteAt (writeBytes buf off (schedRecordBytes s))
      (off + 7 + s.name.length) = 0 := by
    have hv := hmid (7 + s.name.length) (by omega)
    rw [show off + (7 + s.name.length) = off + 7 + s.name.length by omega] at hv
    rw [hv]
    have hstep : (schedRecordBytes s).getD (7 + s.name.length) 0 =
        ((s.name.take 31).map (fun b => b % 256) ++ [0]).getD s.name.length 0 := by
      rw [show 7 + s.name.length = s.name.length + 7 by omega]
      rfl
    rw [hstep, hmap, List.getD_append_right _ _ _ _ (le_refl _)]
    simp
  have hcname : readCString (writeBytes buf off (schedRecordBytes s)) (off + 7) =
      s.name := by
    unfold readCString
    exact readCStringGo_spec s.name _ (off + 7) 31 hnlen hbn
      (fun b hb => (hname b hb).1) hbz
  rcases s with ⟨sid, sdm, ssh, ssm, seh, sem, sen, snm⟩
  simp only [parseSchedule, Schedule.mk.injEq]
  exact ⟨hb0, hb1, hb2, hb3, hb4, hb5, by rw [hb6, boolByte_bne_zero], hcname⟩

/-- Decoding the record region written by the serializer loop recovers the
full schedule list. -/
theorem parseLoop_serLoop_eq : ∀ (ss : List Schedule) (buf : List Nat) (off : Nat),
    off + 39 * ss.length ≤ buf.length → (∀ s ∈ ss, s.WFBytes) →
    parseLoop (serLoop ss buf off) off ss.length = ss := by
  intro ss
  induction ss with
  | nil => intro buf off _ _; rfl
  | cons s rest ih =>
    intro buf off h hwf
    simp only [List.length_cons] at h
    have hrec := schedRecordBytes_length_le s
    have hw : (writeBytes buf off (schedRecordBytes s)).length = buf.length :=
      length_writeBytes buf (schedRecordBytes s) off (by omega)
    show parseLoop (serLoop (s :: rest) buf off) off (rest.length + 1) = s :: rest
    unfold serLoop parseLoop
    have hhead : parseSchedule
        (serLoop rest (writeBytes buf off (schedRecordBytes s)) (off + 39)) off = s := by
      rw [parseSchedule_congr _ (writeBytes buf off (schedRecordBytes s)) off
        (fun i h1 h2 => byteAt_serLoop_lt rest _ (off + 39) i (by rw [hw]; omega) (by omega))]
      exact parseSchedule_writeBytes buf off s (by omega)
        (hwf s (List.mem_cons_self s rest))
    rw [hhead, ih (writeBytes buf off (schedRecordBytes s)) (off + 39) (by rw [hw]; omega)
      (fun x hx => hwf x (List.mem_cons_of_mem s hx))]

theorem dtBytes_length (dt : DateTime) : (dtBytes dt).length = 7 := by
  simp [dtBytes]

theorem parseDT_bytes (B : List Nat) (q : Nat) (dt : DateTime) (hwf : dt.WFBytes)
    (h : ∀ j, j < 7 → byteAt B (q + j) = (dtBytes dt).getD j 0) :
    parseDT B q = dt := by
  obtain ⟨hy, hm, hd, hh, hmm, hss⟩ := hwf
  have h0 : byteAt B q = boolByte dt.valid := by
    have := h 0 (by omega)
    simpa using this
  have h1 : byteAt B (q + 1) = dt.yOff % 256 := h 1 (by omega)
  have h2 : byteAt B (q + 2) = dt.m % 256 := h 2 (by omega)
  have h3 : byteAt B (q + 3) = dt.d % 256 := h 3 (by omega)
  have h4 : byteAt B (q + 4) = dt.hh % 256 := h 4 (by omega)
  have h5 : byteAt B (q + 5) = dt.mm % 256 := h 5 (by omega)
  have h6 : byteAt B (q + 6) = dt.ss % 256 := h 6 (by omega)
  rcases dt with ⟨v, y, mo, d, hr, mi, sec⟩
  simp only [parseDT, DateTime.mk.injEq]
  refine ⟨by rw [h0, boolByte_bne_zero], ?_, ?_, ?_, ?_, ?_, ?_⟩
  · rw [h1]; exact Nat.mod_eq_of_lt hy
  · rw [h2]; exact Nat.mod_eq_of_lt hm
  · rw [h3]; exact Nat.mod_eq_of_lt hd
  · rw [h4]; exact Nat.mod_eq_of_lt hh
  · rw [h5]; exact Nat.mod_eq_of_lt hmm
  · rw [h6]; exact Nat.mod_eq_of_lt hss

theorem vacBytes_length (v : VacationMode) :
    (vacBytes v).length = sizeofVacationMode := by
  simp [vacBytes, dtBytes, sizeofVacationMode]

theorem pumpBytes_length (p : PumpExercise) :
    (pumpBytes p).length = sizeofPumpExercise := by
  simp [pumpBytes, dtBytes, sizeofPumpExercise]

/-- Decoding a written vacation record recovers it. -/
theorem parseVac_writeBytes (buf : List Nat) (p : Nat) (v : VacationMode)
    (hoff : p + sizeofVacationMode ≤ buf.length) (hwf : v.WFBytes) :
    parseVac (writeBytes buf p (vacBytes v)) p = v := by
  have hmid : ∀ j, j < sizeofVacationMode →
      byteAt (writeBytes buf p (vacBytes v)) (p + j) = (vacBytes v).getD j 0 := by
    intro j hj
    exact byteAt_writeBytes_mid buf (vacBytes v) p j (by omega)
      (by rw [vacBytes_length]; omega)
  have hen : byteAt (writeBytes buf p (vacBytes v)) p = boolByte v.enabled := by
    have := hmid 0 (by decide)
    simpa [vacBytes] using this
  have hstart : parseDT (writeBytes buf p (vacBytes v)) (p + 1) = v.startDate := by
    apply parseDT_bytes _ _ _ hwf.1
    intro j hj
    have hv := hmid (1 + j) (by simp [sizeofVacationMode]; omega)
    rw [show p + (1 + j) = p + 1 + j by omega] at hv
    rw [hv, show 1 + j = j + 1 by omega]
    simp only [vacBytes]
    rw [List.getD_cons_succ,
      List.getD_append _ _ _ _ (by rw [dtBytes_length]; omega)]
  have hend : parseDT (writeBytes buf p (vacBytes v)) (p + 8) = v.endDate := by
    apply parseDT_bytes _ _ _ hwf.2
    intro j hj
    have hv := hmid (1 + (7 + j)) (by simp [sizeofVacationMode]; omega)
    rw [show p + (1 + (7 + j)) = p + 8 + j by omega] at hv
    rw [hv, show 1 + (7 + j) = (7 + j) + 1 by omega]
    simp only [vacBytes]
    rw [List.getD_cons_succ,
      List.getD_append_right _ _ _ _ (by rw [dtBytes_length]; omega)]
    rw [dtBytes_length, show 7 + j - 7 = j by omega,
      List.getD_append _ _ _ _ (by rw [dtBytes_length]; omega)]
  have hrun : byteAt (writeBytes buf p (vacBytes v)) (p + 15) =
      boolByte v.runPumpExercise := by
    have hv := hmid 15 (by decide)
    rw [hv]
    simp [vacBytes, dtBytes]
  rcases v with ⟨e, sd, ed, rp⟩
  simp only [parseVac, VacationMode.mk.injEq]
  exact ⟨by rw [hen, boolByte_bne_zero], hstart, hend,
    by rw [hrun, boolByte_bne_zero]⟩

/-- Decoding a written pump-exercise record recovers it. -/
theorem parsePump_writeBytes (buf : List Nat) (p : Nat) (pe : PumpExercise)
    (hoff : p + sizeofPumpExercise ≤ buf.length) (hwf : pe.WFBytes) :
    parsePump (writeBytes buf p (pumpBytes pe)) p = pe := by
  obtain ⟨hdm, hhr, hmi, hdur, hlr⟩ := hwf
  have hmid : ∀ j, j < sizeofPumpExercise →
      byteAt (writeBytes buf p (pumpBytes pe)) (p + j) = (pumpBytes pe).getD j 0 := by
    intro j hj
    exact byteAt_writeBytes_mid buf (pumpBytes pe) p j (by omega)
      (by rw [pumpBytes_length]; omega)
  have hen : byteAt (writeBytes buf p (pumpBytes pe)) p = boolByte pe.enabled := by
    have := hmid 0 (by decide)
    simpa [pumpBytes] using this
  have h1 : byteAt (writeBytes buf p (pumpBytes pe)) (p + 1) = pe.dayOfMonth % 256 :=
    hmid 1 (by decide)
  have h2 : byteAt (writeBytes buf p (pumpBytes pe)) (p + 2) = pe.hour % 256 :=
    hmid 2 (by decide)
  have h3 : byteAt (writeBytes buf p (pumpBytes pe)) (p + 3) = pe.minute % 256 :=
    hmid 3 (by decide)
  have h4 : byteAt (writeBytes buf p (pumpBytes pe)) (p + 4) =
      pe.durationSeconds % 256 := hmid 4 (by decide)
  have h5 : byteAt (writeBytes buf p (pumpBytes pe)) (p + 5) =
      pe.durationSeconds / 256 % 256 := hmid 5 (by decide)
  have hlast : parseDT (writeBytes buf p (pumpBytes pe)) (p + 6) = pe.lastRun := by
    apply parseDT_bytes _ _ _ hlr
    intro j hj
    have hv := hmid (6 + j) (by simp [sizeofPumpExercise]; omega)
    rw [show p + (6 + j) = p + 6 + j by omega] at hv
    rw [hv, show 6 + j = j + 6 by omega]
    rfl
  rcases pe with ⟨e, dm, hr, mi, du, lr⟩
  simp only [parsePump, PumpExercise.mk.injEq]
  refine ⟨by rw [hen, boolByte_bne_zero], ?_, ?_, ?_, ?_, hlast⟩
  · rw [h1]; exact Nat.mod_eq_of_lt hdm
  · rw [h2]; exact Nat.mod_eq_of_lt hhr
  · rw [h3]; exact Nat.mod_eq_of_lt hmi
  · rw [h4, h5]
    show du % 256 + 256 * (du / 256 % 256) = du
    have hdu : du < 65536 := hdur
    omega

theorem parseDT_congr (B Bp : List Nat) (q : Nat)
    (h : ∀ i, q ≤ i → i < q + 7 → byteAt B i = byteAt Bp i) :
    parseDT B q = parseDT Bp q := by
  unfold parseDT
  rw [h q (by omega) (by omega), h (q + 1) (by omega) (by omega),
    h (q + 2) (by omega) (by omega), h (q + 3) (by omega) (by omega),
    h (q + 4) (by omega) (by omega), h (q + 5) (by omega) (by omega),
    h (q + 6) (by omega) (by omega)]

theorem parseVac_congr (B Bp : List Nat) (p : Nat)
    (h : ∀ i, p ≤ i → i < p + sizeofVacationMode → byteAt B i = byteAt Bp i) :
    parseVac B p = parseVac Bp p := by
  unfold parseVac
  rw [h p (by omega) (by simp [sizeofVacationMode]),
    h (p + 15) (by omega) (by simp [sizeofVacationMode]),
    parseDT_congr B Bp (p + 1)
      (fun i h1 h2 => h i (by omega) (by simp [sizeofVacationMode]; omega)),
    parseDT_congr B Bp (p + 8)
      (fun i h1 h2 => h i (by omega) (by simp [sizeofVacationMode]; omega))]

/-- Claim C1: serializing any well-formed controller state (at most 10
schedules, names of at most 31 bytes) into a sufficiently large buffer and
deserializing the result succeeds and reproduces exactly the same
schedules, vacation-mode record and pump-exercise record. -/
theorem claimC1_persistence_roundtrip (st st2 : CtrlState) (buffer : List Nat)
    (hlen : getScheduleDataSize st ≤ buffer.length)
    (hcap : st.schedules.length ≤ MAX_SCHEDULES)
    (hws : ∀ s ∈ st.schedules, s.WFBytes)
    (hwv : st.vacationMode.WFBytes)
    (hwp : st.pumpExercise.WFBytes) :
    (serializeSchedules st buffer).1 = true ∧
    (deserializeSchedules st2 (some (serializeSchedules st buffer).2)).1 = true ∧
    (deserializeSchedules st2 (some (serializeSchedules st buffer).2)).2.schedules =
      st.schedules ∧
    (deserializeSchedules st2 (some (serializeSchedules st buffer).2)).2.vacationMode =
      st.vacationMode ∧
    (deserializeSchedules st2 (some (serializeSchedules st buffer).2)).2.pumpExercise =
      st.pumpExercise := by
  have hcap10 : st.schedules.length ≤ 10 := hcap
  have hlen33 : 33 + 40 * st.schedules.length ≤ buffer.length := by
    have h := hlen
    simp only [getScheduleDataSize, scheduleRecordStorageSize, sizeofVacationMode,
      sizeofPumpExercise] at h
    omega
  have hB1 : (writeBytes buffer 0 [0xD3, 0x23, 1, st.schedules.length % 256]).length =
      buffer.length :=
    length_writeBytes _ _ _ (by simp; omega)
  have hB2 : (serLoop st.schedules
      (writeBytes buffer 0 [0xD3, 0x23, 1, st.schedules.length % 256]) 4).length =
      buffer.length := by
    rw [length_serLoop st.schedules _ 4 (by rw [hB1]; omega)]
    exact hB1
  have hB3 : (writeBytes (serLoop st.schedules
      (writeBytes buffer 0 [0xD3, 0x23, 1, st.schedules.length % 256]) 4)
      (4 + 39 * st.schedules.length) (vacBytes st.vacationMode)).length =
      buffer.length := by
    rw [length_writeBytes _ _ _ (by rw [vacBytes_length, hB2]; simp only [sizeofVacationMode]; omega)]
    exact hB2
  have hB4 : (writeBytes (writeBytes (serLoop st.schedules
      (writeBytes buffer 0 [0xD3, 0x23, 1, st.schedules.length % 256]) 4)
      (4 + 39 * st.schedules.length) (vacBytes st.vacationMode))
      (4 + 39 * st.schedules.length + sizeofVacationMode)
      (pumpBytes st.pumpExercise)).length = buffer.length := by
    rw [length_writeBytes _ _ _ (by rw [pumpBytes_length, hB3]; simp only [sizeofVacationMode, sizeofPumpExercise]; omega)]
    exact hB3
  have hser : serializeSchedules st buffer = (true, writeBytes (writeBytes
      (serLoop st.schedules
        (writeBytes buffer 0 [0xD3, 0x23, 1, st.schedules.length % 256]) 4)
      (4 + 39 * st.schedules.length) (vacBytes st.vacationMode))
      (4 + 39 * st.schedules.length + sizeofVacationMode)
      (pumpBytes st.pumpExercise)) := by
    unfold serializeSchedules
    rw [if_neg (by omega)]
  have hh : ∀ j, j < 4 → byteAt (writeBytes (writeBytes (serLoop st.schedules
      (writeBytes buffer 0 [0xD3, 0x23, 1, st.schedules.length % 256]) 4)
      (4 + 39 * st.schedules.length) (vacBytes st.vacationMode))
      (4 + 39 * st.schedules.length + sizeofVacationMode)
      (pumpBytes st.pumpExercise)) j =
      [0xD3, 0x23, 1, st.schedules.length % 256].getD j 0 := by
    intro j hj
    rw [byteAt_writeBytes_lt _ _ _ _ (by rw [hB3]; simp only [sizeofVacationMode]; omega) (by simp only [sizeofVacationMode]; omega)]
    rw [byteAt_writeBytes_lt _ _ _ _ (by rw [hB2]; omega) (by omega)]
    rw [byteAt_serLoop_lt st.schedules _ 4 j (by rw [hB1]; omega) hj]
    have := byteAt_writeBytes_mid buffer [0xD3, 0x23, 1, st.schedules.length % 256]
      0 j (by omega) (by simp; omega)
    simpa using this
  have h0 : byteAt (writeBytes (writeBytes (serLoop st.schedules
      (writeBytes buffer 0 [0xD3, 0x23, 1, st.schedules.length % 256]) 4)
      (4 + 39 * st.schedules.length) (vacBytes st.vacationMode))
      (4 + 39 * st.schedules.length + sizeofVacationMode)
      (pumpBytes st.pumpExercise)) 0 = 0xD3 := by
    have := hh 0 (by omega)
    simpa using this
  have h1 : byteAt (writeBytes (writeBytes (serLoop st.schedules
      (writeBytes buffer 0 [0xD3, 0x23, 1, st.schedules.length % 256]) 4)
      (4 + 39 * st.schedules.length) (vacBytes st.vacationMode))
      (4 + 39 * st.schedules.length + sizeofVacationMode)
      (pumpBytes st.pumpExercise)) 1 = 0x23 := by
    have := hh 1 (by omega)
    simpa using this
  have h2 : byteAt (writeBytes (writeBytes (serLoop st.schedules
      (writeBytes buffer 0 [0xD3, 0x23, 1, st.schedules.length % 256]) 4)
      (4 + 39 * st.schedules.length) (vacBytes st.vacationMode))
      (4 + 39 * st.schedules.length + sizeofVacationMode)
      (pumpBytes st.pumpExercise)) 2 = 1 := by
    have := hh 2 (by omega)
    simpa using this
  have h3 : byteAt (writeBytes (writeBytes (serLoop st.schedules
      (writeBytes buffer 0 [0xD3, 0x23, 1, st.schedules.length % 256]) 4)
      (4 + 39 * st.schedules.length) (vacBytes st.vacationMode))
      (4 + 39 * st.schedules.length + sizeofVacationMode)
      (pumpBytes st.pumpExercise)) 3 = st.schedules.length := by
    have := hh 3 (by omega)
    simpa [Nat.mod_eq_of_lt (by omega : st.schedules.length < 256)] using this
  have hdes := deserialize_eq_of_header st2 _ (by rw [hB4]; omega) h0 h1 h2
    (by rw [h3]; exact hcap)
  have hsch : parseLoop (writeBytes (writeBytes (serLoop st.schedules
      (writeBytes buffer 0 [0xD3, 0x23, 1, st.schedules.length % 256]) 4)
      (4 + 39 * st.schedules.length) (vacBytes st.vacationMode))
      (4 + 39 * st.schedules.length + sizeofVacationMode)
      (pumpBytes st.pumpExercise)) 4 st.schedules.length = st.schedules := by
    rw [parseLoop_congr _ (serLoop st.schedules
      (writeBytes buffer 0 [0xD3, 0x23, 1, st.schedules.length % 256]) 4)
      st.schedules.length 4 ?_]
    · exact parseLoop_serLoop_eq st.schedules _ 4 (by rw [hB1]; omega) hws
    · intro i hi1 hi2
      rw [byteAt_writeBytes_lt _ _ _ _ (by rw [hB3]; simp only [sizeofVacationMode]; omega) (by simp only [sizeofVacationMode]; omega)]
      rw [byteAt_writeBytes_lt _ _ _ _ (by rw [hB2]; omega) (by omega)]
  have hvac : parseVac (writeBytes (writeBytes (serLoop st.schedules
      (writeBytes buffer 0 [0xD3, 0x23, 1, st.schedules.length % 256]) 4)
      (4 + 39 * st.schedules.length) (vacBytes st.vacationMode))
      (4 + 39 * st.schedules.length + sizeofVacationMode)
      (pumpBytes st.pumpExercise)) (4 + 39 * st.schedules.length) =
      st.vacationMode := by
    rw [parseVac_congr _ (writeBytes (serLoop st.schedules
      (writeBytes buffer 0 [0xD3, 0x23, 1, st.schedules.length % 256]) 4)
      (4 + 39 * st.schedules.length) (vacBytes st.vacationMode))
      (4 + 39 * st.schedules.length) ?_]
    · exact parseVac_writeBytes _ _ st.vacationMode (by rw [hB2]; simp only [sizeofVacationMode]; omega) hwv
    · intro i hi1 hi2
      rw [byteAt_writeBytes_lt _ _ _ _ (by rw [hB3]; simp only [sizeofVacationMode]; omega) (by omega)]
  have hpump : parsePump (writeBytes (writeBytes (serLoop st.schedules
      (writeBytes buffer 0 [0xD3, 0x23, 1, st.schedules.length % 256]) 4)
      (4 + 39 * st.schedules.length) (vacBytes st.vacationMode))
      (4 + 39 * st.schedules.length + sizeofVacationMode)
      (pumpBytes st.pumpExercise))
      (4 + 39 * st.schedules.length + sizeofVacationMode) = st.pumpExercise := by
    exact parsePump_writeBytes _ _ st.pumpExercise (by rw [hB3]; simp only [sizeofVacationMode, sizeofPumpExercise]; omega) hwp
  rw [hser]
  refine ⟨rfl, ?_, ?_, ?_, ?_⟩
  · rw [hdes]
  · rw [hdes]
    show parseLoop _ 4 (byteAt _ 3) = st.schedules
    rw [h3]
    exact hsch
  · rw [hdes]
    show (if 4 + 39 * byteAt _ 3 + sizeofVacationMode ≤ _ then _ else _) =
      st.vacationMode
    rw [h3, if_pos (by rw [hB4]; simp only [sizeofVacationMode]; omega)]
    exact hvac
  · rw [hdes]
    show (if 4 + 39 * byteAt _ 3 + sizeofVacationMode ≤ _ then _ else _) =
      st.pumpExercise
    rw [h3, if_pos (by rw [hB4]; simp only [sizeofVacationMode]; omega)]
    rw [if_pos (by rw [hB4]; simp only [sizeofVacationMode, sizeofPumpExercise]; omega)]
    exact hpump

/-- Witness for C1: the concrete one-schedule state with vacation and pump
records round-trips through an 80-byte buffer prefilled with 7s. -/
theorem claimC1_witness :
    (getScheduleDataSize exStFull ≤ (List.replicate 80 7 : List Nat).length ∧
      exStFull.schedules.length ≤ MAX_SCHEDULES ∧
      (∀ s ∈ exStFull.schedules, s.WFBytes) ∧
      exStFull.vacationMode.WFBytes ∧ exStFull.pumpExercise.WFBytes) ∧
    (serializeSchedules exStFull (List.replicate 80 7)).1 = true ∧
    (deserializeSchedules exSt0
      (some (serializeSchedules exStFull (List.replicate 80 7)).2)).1 = true ∧
    (deserializeSchedules exSt0
      (some (serializeSchedules exStFull (List.replicate 80 7)).2)).2.schedules =
      exStFull.schedules ∧
    (deserializeSchedules exSt0
      (some (serializeSchedules exStFull (List.replicate 80 7)).2)).2.vacationMode =
      exStFull.vacationMode ∧
    (deserializeSchedules exSt0
      (some (serializeSchedules exStFull (List.replicate 80 7)).2)).2.pumpExercise =
      exStFull.pumpExercise := by
  refine ⟨⟨by decide, by decide, by decide, by decide, by decide⟩, ?_⟩
  exact claimC1_persistence_roundtrip exStFull exSt0 (List.replicate 80 7)
    (by decide) (by decide) (by decide) (by decide) (by decide)

/-! ## Calendar arithmetic for the next-occurrence analysis -/

theorem leapN_le (y : Nat) : leapN y ≤ 1 := by
  unfold leapN
  split <;> omega

theorem offDays_succ (y : Nat) : offDays (y + 1) = offDays y + 365 + leapN y := by
  unfold offDays leapN
  by_cases h4 : y % 4 = 0
  · rw [if_pos h4]
    omega
  · rw [if_neg h4]
    omega

/-- The year-extraction loop decomposes a day count into a year offset
plus a remainder below one year. -/
theorem yearGo_spec : ∀ (fuel y days : Nat), days < 365 * fuel →
    offDays y + days = offDays (yearGo fuel y days).1 + (yearGo fuel y days).2 ∧
      (yearGo fuel y days).2 < 365 + leapN (yearGo fuel y days).1 := by
  intro fuel
  induction fuel with
  | zero => intro y days h; omega
  | succ f ih =>
    intro y days h
    unfold yearGo
    by_cases hd : days < 365 + leapN y
    · rw [if_pos hd]
      exact ⟨rfl, hd⟩
    · rw [if_neg hd]
      have hL := leapN_le y
      have hrec := ih (y + 1) (days - (365 + leapN y)) (by omega)
      have hoff := offDays_succ y
      exact ⟨by omega, hrec.2⟩

set_option maxRecDepth 8000 in
/-- The month-extraction loop (leap year): month in 1..12 and the
cumulative month days plus remainder reconstruct the input. -/
theorem monthGo_spec_leap : ∀ rem < 366,
    1 ≤ (monthGo true 11 1 rem).1 ∧ (monthGo true 11 1 rem).1 ≤ 12 ∧
      monthCum (monthGo true 11 1 rem).1 +
        (if 2 < (monthGo true 11 1 rem).1 then 1 else 0) +
        (monthGo true 11 1 rem).2 = rem := by
  decide

set_option maxRecDepth 8000 in
/-- The month-extraction loop (non-leap year). -/
theorem monthGo_spec_nonleap : ∀ rem < 365,
    1 ≤ (monthGo false 11 1 rem).1 ∧ (monthGo false 11 1 rem).1 ≤ 12 ∧
      monthCum (monthGo false 11 1 rem).1 + (monthGo false 11 1 rem).2 = rem := by
  decide

/-- Closed form of the epoch-to-fields conversion. -/
theorem ofSecs2000_def (e : Nat) : ofSecs2000 e =
    ⟨true, (yearGo (e / 86400 + 1) 0 (e / 86400)).1,
      (monthGo (decide ((yearGo (e / 86400 + 1) 0 (e / 86400)).1 % 4 = 0)) 11 1
        (yearGo (e / 86400 + 1) 0 (e / 86400)).2).1,
      (monthGo (decide ((yearGo (e / 86400 + 1) 0 (e / 86400)).1 % 4 = 0)) 11 1
        (yearGo (e / 86400 + 1) 0 (e / 86400)).2).2 + 1,
      e / 3600 % 24, e / 60 % 60, e % 60⟩ := by
  simp only [ofSecs2000]
  rw [show e / 60 / 60 = e / 3600 by rw [Nat.div_div_eq_div_mul]]
  rw [show e / 3600 / 24 = e / 86400 by rw [Nat.div_div_eq_div_mul]]

/-- The day number of the decoded calendar date is the day quotient of the
epoch input: the year/month loops invert `date2days`. -/
theorem dayNum_ofSecs2000 (e : Nat) :
    date2days (ofSecs2000 e).yOff (ofSecs2000 e).m (ofSecs2000 e).d = e / 86400 := by
  rw [ofSecs2000_def]
  have hyg := yearGo_spec (e / 86400 + 1) 0 (e / 86400) (by omega)
  obtain ⟨hsum, hrem⟩ := hyg
  unfold offDays at hsum
  show date2days (yearGo (e / 86400 + 1) 0 (e / 86400)).1
    (monthGo (decide ((yearGo (e / 86400 + 1) 0 (e / 86400)).1 % 4 = 0)) 11 1
      (yearGo (e / 86400 + 1) 0 (e / 86400)).2).1
    ((monthGo (decide ((yearGo (e / 86400 + 1) 0 (e / 86400)).1 % 4 = 0)) 11 1
      (yearGo (e / 86400 + 1) 0 (e / 86400)).2).2 + 1) = e / 86400
  by_cases h4 : (yearGo (e / 86400 + 1) 0 (e / 86400)).1 % 4 = 0
  · rw [show (decide ((yearGo (e / 86400 + 1) 0 (e / 86400)).1 % 4 = 0)) = true by
      simp [h4]]
    have hm := monthGo_spec_leap (yearGo (e / 86400 + 1) 0 (e / 86400)).2
      (by unfold leapN at hrem; rw [if_pos h4] at hrem; omega)
    obtain ⟨hm1, hm2, hm3⟩ := hm
    unfold date2days
    by_cases h2 : 2 < (monthGo true 11 1 (yearGo (e / 86400 + 1) 0 (e / 86400)).2).1
    · rw [if_pos ⟨h2, h4⟩]
      rw [if_pos h2] at hm3
      omega
    · rw [if_neg (by tauto)]
      rw [if_neg h2] at hm3
      omega
  · rw [show (decide ((yearGo (e / 86400 + 1) 0 (e / 86400)).1 % 4 = 0)) = false by
      simp [h4]]
    have hm := monthGo_spec_nonleap (yearGo (e / 86400 + 1) 0 (e / 86400)).2
      (by unfold leapN at hrem; rw [if_neg h4] at hrem; omega)
    obtain ⟨hm1, hm2, hm3⟩ := hm
    unfold date2days
    rw [if_neg (by tauto)]
    omega

/-- The epoch conversion round-trips through `unixtime`. -/
theorem unixtime_ofSecs2000 (e : Nat) :
    (ofSecs2000 e).unixtime = e + EPOCH2000 := by
  unfold DateTime.unixtime
  rw [dayNum_ofSecs2000, ofSecs2000_def]
  show time2ulong (e / 86400) (e / 3600 % 24) (e / 60 % 60) (e % 60) + EPOCH2000 =
    e + EPOCH2000
  unfold time2ulong
  omega

theorem addSeconds_ofSecs2000 (e k : Nat) :
    (ofSecs2000 e).addSeconds k = ofSecs2000 (e + k) := by
  unfold DateTime.addSeconds DateTime.ofUnixtime
  rw [unixtime_ofSecs2000]
  rw [show e + EPOCH2000 + k - EPOCH2000 = e + k by omega]

theorem dayOfTheWeek_ofSecs2000 (e : Nat) :
    (ofSecs2000 e).dayOfTheWeek = (e / 86400 + 6) % 7 := by
  unfold DateTime.dayOfTheWeek
  rw [dayNum_ofSecs2000]

/-- `operator+` in terms of seconds since 2000. -/
theorem addSeconds_eq (dt : DateTime) (k : Nat) :
    dt.addSeconds k = ofSecs2000
      (time2ulong (date2days dt.yOff dt.m dt.d) dt.hh dt.mm dt.ss + k) := by
  unfold DateTime.addSeconds DateTime.ofUnixtime DateTime.unixtime
  rw [show time2ulong (date2days dt.yOff dt.m dt.d) dt.hh dt.mm dt.ss + EPOCH2000 +
    k - EPOCH2000 = time2ulong (date2days dt.yOff dt.m dt.d) dt.hh dt.mm dt.ss + k
    by omega]

/-- The candidate construction of the day loop, in explicit fields. -/
theorem cand_fields (e sh sm : Nat) :
    DateTime.make (ofSecs2000 e).year (ofSecs2000 e).m (ofSecs2000 e).d sh sm 0 =
      ⟨true, (ofSecs2000 e).yOff, (ofSecs2000 e).m, (ofSecs2000 e).d, sh, sm, 0⟩ := by
  unfold DateTime.make DateTime.year
  rw [if_pos (by omega)]
  simp only [DateTime.mk.injEq]
  exact ⟨trivial, by omega, trivial, trivial, trivial, trivial, trivial⟩

/-- The candidate's epoch second: start of the cursor's day plus the
start-of-window offset. -/
theorem cand_unixtime (e sh sm : Nat) :
    (DateTime.make (ofSecs2000 e).year (ofSecs2000 e).m (ofSecs2000 e).d
      sh sm 0).unixtime =
      EPOCH2000 + (e / 86400) * 86400 + (sh * 3600 + sm * 60) := by
  rw [cand_fields]
  unfold DateTime.unixtime
  show time2ulong
    (date2days (ofSecs2000 e).yOff (ofSecs2000 e).m (ofSecs2000 e).d) sh sm 0 +
      EPOCH2000 = _
  rw [dayNum_ofSecs2000]
  unfold time2ulong
  omega

theorem isDayEnabled_iff_testBit (s : Schedule) (d : Nat) :
    s.isDayEnabled d = true ↔ s.dayMask.testBit d = true := by
  unfold Schedule.isDayEnabled
  rw [Nat.one_shiftLeft, Nat.and_two_pow]
  cases hb : s.dayMask.testBit d
  · simp
  · simp [Nat.pos_iff_ne_zero.mp (Nat.two_pow_pos d)]

/-- A nonzero 7-bit mask enables some weekday. -/
theorem dayMask_exists_day (mask : Nat) (h0 : mask ≠ 0) (h7 : mask < 128) :
    ∃ d, d < 7 ∧ mask.testBit d = true := by
  by_contra hc
  push_neg at hc
  apply h0
  apply Nat.eq_of_testBit_eq
  intro i
  rw [Nat.zero_testBit]
  by_cases hi : i < 7
  · have := hc i hi
    simpa using this
  · have hle : (128 : Nat) ≤ 2 ^ i := by
      calc (128 : Nat) = 2 ^ 7 := by norm_num
        _ ≤ 2 ^ i := Nat.pow_le_pow_right (by omega) (by omega)
    exact Nat.testBit_lt_two_pow (by omega)

/-- Complete characterization of the 8-day scan: either no qualifying
start slot exists among the scanned days (result invalid), or the result
is the candidate of the first qualifying day. -/
theorem calcGo_cases (sched : Schedule) (fromU : Nat) :
    ∀ (fuel e : Nat),
      (calcGo sched fromU (ofSecs2000 e) fuel = DateTime.invalid ∧
        ∀ k, k < fuel → ¬startSlotAfter sched fromU (e / 86400 + k)) ∨
      (∃ k, k < fuel ∧ startSlotAfter sched fromU (e / 86400 + k) ∧
        (∀ j, j < k → ¬startSlotAfter sched fromU (e / 86400 + j)) ∧
        calcGo sched fromU (ofSecs2000 e) fuel =
          DateTime.make (ofSecs2000 (e + 86400 * k)).year
            (ofSecs2000 (e + 86400 * k)).m (ofSecs2000 (e + 86400 * k)).d
            sched.startHour sched.startMinute 0) := by
  intro fuel
  induction fuel with
  | zero =>
    intro e
    left
    exact ⟨rfl, fun k hk => absurd hk (by omega)⟩
  | succ f ih =>
    intro e
    have hdow := dayOfTheWeek_ofSecs2000 e
    have hcu := cand_unixtime e sched.startHour sched.startMinute
    unfold calcGo
    by_cases hen : sched.isDayEnabled ((e / 86400 + 6) % 7) = true
    · rw [if_pos (by rw [hdow]; exact hen)]
      by_cases hlt : fromU < (DateTime.make (ofSecs2000 e).year (ofSecs2000 e).m
          (ofSecs2000 e).d sched.startHour sched.startMinute 0).unixtime
      · rw [if_pos hlt]
        right
        refine ⟨0, by omega, ?_, fun j hj => absurd hj (by omega), ?_⟩
        · constructor
          · rw [show e / 86400 + 0 + 6 = e / 86400 + 6 by omega]
            exact hen
          · rw [hcu] at hlt
            omega
        · rw [show e + 86400 * 0 = e by omega]
      · rw [if_neg hlt]
        rw [addSeconds_ofSecs2000]
        have hnot0 : ¬startSlotAfter sched fromU (e / 86400) := by
          intro hP
          apply hlt
          rw [hcu]
          have := hP.2
          omega
        rcases ih (e + 86400) with ⟨hres, hnone⟩ | ⟨k, hk, hP, hmin, hres⟩
        · left
          refine ⟨hres, ?_⟩
          intro k hk
          cases k with
          | zero =>
            rw [show e / 86400 + 0 = e / 86400 by omega]
            exact hnot0
          | succ k2 =>
            have := hnone k2 (by omega)
            rw [show (e + 86400) / 86400 + k2 = e / 86400 + (k2 + 1) by omega] at this
            exact this
        · right
          refine ⟨k + 1, by omega, ?_, ?_, ?_⟩
          · rw [show e / 86400 + (k + 1) = (e + 86400) / 86400 + k by omega]
            exact hP
          · intro j hj
            cases j with
            | zero =>
              rw [show e / 86400 + 0 = e / 86400 by omega]
              exact hnot0
            | succ j2 =>
              have := hmin j2 (by omega)
              rw [show (e + 86400) / 86400 + j2 = e / 86400 + (j2 + 1) by omega] at this
              exact this
          · rw [hres, show e + 86400 + 86400 * k = e + 86400 * (k + 1) by ring]
    · rw [if_neg (by rw [hdow]; exact hen)]
      rw [addSeconds_ofSecs2000]
      have hnot0 : ¬startSlotAfter sched fromU (e / 86400) := by
        intro hP
        exact hen hP.1
      rcases ih (e + 86400) with ⟨hres, hnone⟩ | ⟨k, hk, hP, hmin, hres⟩
      · left
        refine ⟨hres, ?_⟩
        intro k hk
        cases k with
        | zero =>
          rw [show e / 86400 + 0 = e / 86400 by omega]
          exact hnot0
        | succ k2 =>
          have := hnone k2 (by omega)
          rw [show (e + 86400) / 86400 + k2 = e / 86400 + (k2 + 1) by omega] at this
          exact this
      · right
        refine ⟨k + 1, by omega, ?_, ?_, ?_⟩
        · rw [show e / 86400 + (k + 1) = (e + 86400) / 86400 + k by omega]
          exact hP
        · intro j hj
          cases j with
          | zero =>
            rw [show e / 86400 + 0 = e / 86400 by omega]
            exact hnot0
          | succ j2 =>
            have := hmin j2 (by omega)
            rw [show (e + 86400) / 86400 + j2 = e / 86400 + (j2 + 1) by omega] at this
            exact this
        · rw [hres, show e + 86400 + 86400 * k = e + 86400 * (k + 1) by ring]

/-- Claim C6: `calculateNextOccurrence` returns the invalid marker when the
schedule is disabled or its day mask is empty, and otherwise (for a 7-bit
nonzero mask and in-range start time) returns the earliest dayMask-enabled
`startHour:startMinute` instant strictly after `from`, found within 8 days;
concretely, a Monday-to-Friday 06:00-08:00 schedule queried from Wednesday
2024-01-03 07:00 yields Thursday 2024-01-04 06:00 as the next scheduled
start. -/
theorem claimC6_next_occurrence :
    (∀ (sched : Schedule) (fromDT : DateTime), sched.enabled = false →
      calculateNextOccurrence sched fromDT = DateTime.invalid) ∧
    (∀ (sched : Schedule) (fromDT : DateTime), sched.dayMask = 0 →
      calculateNextOccurrence sched fromDT = DateTime.invalid) ∧
    (∀ (sched : Schedule) (fromDT : DateTime),
      fromDT.InRange → sched.enabled = true → sched.dayMask ≠ 0 →
      sched.dayMask < 128 → sched.startHour < 24 → sched.startMinute < 60 →
      ((calculateNextOccurrence sched fromDT).valid = true ∧
        fromDT.unixtime < (calculateNextOccurrence sched fromDT).unixtime ∧
        (calculateNextOccurrence sched fromDT).hh = sched.startHour ∧
        (calculateNextOccurrence sched fromDT).mm = sched.startMinute ∧
        (calculateNextOccurrence sched fromDT).ss = 0 ∧
        sched.isDayEnabled (calculateNextOccurrence sched fromDT).dayOfTheWeek =
          true ∧
        (calculateNextOccurrence sched fromDT).unixtime <
          fromDT.unixtime + 60 + 8 * 86400 ∧
        (∀ day : Nat, startSlotAfter sched fromDT.unixtime day →
          (calculateNextOccurrence sched fromDT).unixtime ≤
            EPOCH2000 + day * 86400 +
              (sched.startHour * 3600 + sched.startMinute * 60)))) ∧
    getNextScheduledStart exStWeek (DateTime.make 2024 1 3 7 0 0) =
      DateTime.make 2024 1 4 6 0 0 := by
  refine ⟨?_, ?_, ?_, by decide⟩
  · intro sched fromDT h
    unfold calculateNextOccurrence
    rw [if_pos (by simp [h])]
  · intro sched fromDT h
    unfold calculateNextOccurrence
    rw [if_pos (by simp [h])]
  · intro sched fromDT hrange hen hm0 hm7 hsh hsm
    have hU : fromDT.unixtime = time2ulong (date2days fromDT.yOff fromDT.m fromDT.d)
        fromDT.hh fromDT.mm fromDT.ss + EPOCH2000 := rfl
    have hcalc : calculateNextOccurrence sched fromDT =
        calcGo sched fromDT.unixtime
          (ofSecs2000 (time2ulong (date2days fromDT.yOff fromDT.m fromDT.d)
            fromDT.hh fromDT.mm fromDT.ss + 60)) 8 := by
      unfold calculateNextOccurrence
      rw [if_neg (by simp [hen, hm0])]
      rw [addSeconds_eq]
    generalize hX : time2ulong (date2days fromDT.yOff fromDT.m fromDT.d)
      fromDT.hh fromDT.mm fromDT.ss = X at hU hcalc
    generalize hUU : fromDT.unixtime = U at hU hcalc ⊢
    obtain ⟨d, hd7, hbit⟩ := dayMask_exists_day sched.dayMask hm0 hm7
    have hex : ∃ kk, 1 ≤ kk ∧ kk ≤ 7 ∧ ((X + 60) / 86400 + kk + 6) % 7 = d := by
      refine ⟨(d + 6 - ((X + 60) / 86400 + 6) % 7) % 7 + 1, by omega, by omega,
        by omega⟩
    obtain ⟨kk, hkk1, hkk7, hkkd⟩ := hex
    have hPkk : startSlotAfter sched U ((X + 60) / 86400 + kk) := by
      constructor
      · rw [hkkd]
        exact (isDayEnabled_iff_testBit sched d).mpr hbit
      · rw [hU]
        omega
    rcases calcGo_cases sched U 8 (X + 60) with ⟨_, hnone⟩ | ⟨kf, hkf8, hPf, hminf, hres⟩
    · exact absurd hPkk (hnone kk (by omega))
    · have hcf := cand_fields (X + 60 + 86400 * kf) sched.startHour sched.startMinute
      have hcu := cand_unixtime (X + 60 + 86400 * kf) sched.startHour sched.startMinute
      have hdiv : (X + 60 + 86400 * kf) / 86400 = (X + 60) / 86400 + kf := by omega
      rw [hcalc, hres]
      refine ⟨?_, ?_, ?_, ?_, ?_, ?_, ?_, ?_⟩
      · rw [hcf]
      · rw [hcu, hdiv]
        exact hPf.2
      · rw [hcf]
      · rw [hcf]
      · rw [hcf]
      · rw [hcf]
        show sched.isDayEnabled
          ((date2days (ofSecs2000 (X + 60 + 86400 * kf)).yOff
            (ofSecs2000 (X + 60 + 86400 * kf)).m
            (ofSecs2000 (X + 60 + 86400 * kf)).d + 6) % 7) = true
        rw [dayNum_ofSecs2000, hdiv]
        exact hPf.1
      · rw [hcu, hdiv, hU]
        omega
      · intro day hday
        rw [hcu, hdiv]
        obtain ⟨hday1, hday2⟩ := hday
        by_cases hlt : day < (X + 60) / 86400 + kf
        · have hge : (X + 60) / 86400 ≤ day := by
            rw [hU] at hday2
            omega
          have hcontra := hminf (day - (X + 60) / 86400) (by omega)
          rw [show (X + 60) / 86400 + (day - (X + 60) / 86400) = day by omega]
            at hcontra
          exact absurd ⟨hday1, hday2⟩ hcontra
        · omega

/-- Witness for C6: the Monday-to-Friday 06:00-08:00 schedule queried from
Wednesday 2024-01-03 07:00 — the result is valid, strictly after `from`,
and no later than the Thursday (day 8769) 06:00 start slot. -/
theorem claimC6_witness :
    ((DateTime.make 2024 1 3 7 0 0).InRange ∧ exSchedWeek.enabled = true ∧
      exSchedWeek.dayMask ≠ 0 ∧ exSchedWeek.dayMask < 128 ∧
      exSchedWeek.startHour < 24 ∧ exSchedWeek.startMinute < 60 ∧
      startSlotAfter exSchedWeek (DateTime.make 2024 1 3 7 0 0).unixtime 8769) ∧
    (calculateNextOccurrence exSchedWeek (DateTime.make 2024 1 3 7 0 0)).valid =
      true ∧
    (DateTime.make 2024 1 3 7 0 0).unixtime <
      (calculateNextOccurrence exSchedWeek (DateTime.make 2024 1 3 7 0 0)).unixtime ∧
    (calculateNextOccurrence exSchedWeek (DateTime.make 2024 1 3 7 0 0)).unixtime ≤
      EPOCH2000 + 8769 * 86400 +
        (exSchedWeek.startHour * 3600 + exSchedWeek.startMinute * 60) := by
  have h := claimC6_next_occurrence.2.2.1 exSchedWeek (DateTime.make 2024 1 3 7 0 0)
    (by decide) (by decide) (by decide) (by decide) (by decide) (by decide)
  exact ⟨⟨by decide, by decide, by decide, by decide, by decide, by decide, by decide⟩,
    h.1, h.2.1, h.2.2.2.2.2.2.2 8769 (by decide)⟩

end DS3231
